import Mathlib

/-!
Verification development for the credential-record management bot
(`bot.py`): the record store gateway (`load_users` / `save_users`) and the
per-operator conversation state machine (`handle_message`,
`button_handler`, `handle_offline_callback`, `handle_confirm_callback`).

The gateway is modelled at the level of HTTP responses: each remote call
is an oracle parameter (network error, or a status code with a body
string).  The JSON layer (`loads` / `dumps`) models the Python standard
library functions `json.loads` and `json.dumps(..., indent=2,
ensure_ascii=False)` that the source invokes, over an inductive `Json`
value type.  Numeric literals are kept verbatim as their lexeme (the
program never inspects numeric values), and a lone UTF-16 surrogate in a
`\uXXXX` escape is mapped to NUL since Lean characters are unicode scalar
values; no behaviour proved below depends on either corner.
-/

/-- A JSON value as produced by the Python `json` module: `obj` keeps the
dict's insertion order with unique keys (duplicate keys during parsing
keep the first position and the last value, like a Python dict). -/
inductive Json where
  | null
  | bool (b : Bool)
  | num (lit : String)
  | str (s : String)
  | arr (elems : List Json)
  | obj (fields : List (String × Json))
deriving Repr

/-- JSON inter-token whitespace, as in Python's decoder (`[ \t\n\r]`). -/
def jsonWs (c : Char) : Bool :=
  c = ' ' || c = '\t' || c = '\n' || c = '\r'

/-- Skip JSON whitespace. -/
def skipWs : List Char → List Char
  | [] => []
  | c :: rest => if jsonWs c then skipWs rest else c :: rest

/-- Value of one hexadecimal digit (both cases), as in `\uXXXX` escapes. -/
def hexVal (c : Char) : Option Nat :=
  if '0' ≤ c ∧ c ≤ '9' then some (c.toNat - 48)
  else if 'a' ≤ c ∧ c ≤ 'f' then some (c.toNat - 87)
  else if 'A' ≤ c ∧ c ≤ 'F' then some (c.toNat - 55)
  else none

/-- Decode one short escape character after a backslash. -/
def escChar? (e : Char) : Option Char :=
  if e = '"' then some '"'
  else if e = '\\' then some '\\'
  else if e = '/' then some '/'
  else if e = 'b' then some (Char.ofNat 8)
  else if e = 'f' then some (Char.ofNat 12)
  else if e = 'n' then some '\n'
  else if e = 'r' then some '\r'
  else if e = 't' then some '\t'
  else none

/-- Parse the body of a JSON string literal, modelling the strict-mode
scanner: raw control characters are rejected, `\uXXXX` escapes are
decoded with surrogate-pair combination.  Fuelled: each step consumes at
least one character and one unit of fuel, so the wrapper below supplies
enough fuel for any input. -/
def parseStrBodyAux : Nat → List Char → List Char → Option (String × List Char)
  | 0, _, _ => none
  | Nat.succ _, _, [] => none
  | Nat.succ fuel, acc, c :: rest =>
    if c = '"' then some (⟨acc.reverse⟩, rest)
    else if c = '\\' then
      match rest with
      | [] => none
      | e :: rest2 =>
        if e = 'u' then
          match rest2 with
          | h1 :: h2 :: h3 :: h4 :: b1 :: b2 :: g1 :: g2 :: g3 :: g4 :: rest4 =>
            match hexVal h1, hexVal h2, hexVal h3, hexVal h4 with
            | some a, some b, some c2, some d =>
              let n := ((a * 16 + b) * 16 + c2) * 16 + d
              if (0xD800 ≤ n ∧ n ≤ 0xDBFF) ∧ b1 = '\\' ∧ b2 = 'u' then
                match hexVal g1, hexVal g2, hexVal g3, hexVal g4 with
                | some a2, some b2', some c2', some d2 =>
                  let m := ((a2 * 16 + b2') * 16 + c2') * 16 + d2
                  if 0xDC00 ≤ m ∧ m ≤ 0xDFFF then
                    parseStrBodyAux fuel
                      (Char.ofNat (0x10000 + (n - 0xD800) * 0x400 + (m - 0xDC00)) :: acc)
                      rest4
                  else
                    parseStrBodyAux fuel (Char.ofNat n :: acc)
                      (b1 :: b2 :: g1 :: g2 :: g3 :: g4 :: rest4)
                | _, _, _, _ => none
              else
                parseStrBodyAux fuel (Char.ofNat n :: acc)
                  (b1 :: b2 :: g1 :: g2 :: g3 :: g4 :: rest4)
            | _, _, _, _ => none
          | h1 :: h2 :: h3 :: h4 :: rest3 =>
            match hexVal h1, hexVal h2, hexVal h3, hexVal h4 with
            | some a, some b, some c2, some d =>
              let n := ((a * 16 + b) * 16 + c2) * 16 + d
              if (0xD800 ≤ n ∧ n ≤ 0xDBFF) ∧ rest3.take 2 = ['\\', 'u'] then
                none
              else parseStrBodyAux fuel (Char.ofNat n :: acc) rest3
            | _, _, _, _ => none
          | _ => none
        else
          match escChar? e with
          | some d => parseStrBodyAux fuel (d :: acc) rest2
          | none => none
    else if c.toNat < 32 then none
    else parseStrBodyAux fuel (c :: acc) rest

/-- Parse the body of a JSON string literal (after the opening quote);
each step of the scanner consumes at least one character, so
`cs.length + 1` units of fuel always suffice. -/
def parseStrBody (acc : List Char) (cs : List Char) : Option (String × List Char) :=
  parseStrBodyAux (cs.length + 1) acc cs

/-- Lex a JSON number using the decoder's regular expression
`(-?(0|[1-9]\d*))(\.\d+)?([eE][-+]?\d+)?`, returning the lexeme. -/
def lexNum (cs : List Char) : Option (List Char × List Char) :=
  let (sign, cs1) :=
    match cs with
    | '-' :: r => (['-'], r)
    | _ => (([] : List Char), cs)
  match cs1 with
  | [] => none
  | d :: r =>
    if d = '0' ∨ ¬ d.isDigit then
      if d = '0' then
        let (intPart, r2) := ([d], r)
        let (frac, r3) :=
          match r2 with
          | '.' :: r2' =>
            let (ds, r2'') := r2'.span Char.isDigit
            if ds = [] then (([] : List Char), r2) else ('.' :: ds, r2'')
          | _ => (([] : List Char), r2)
        let (expPart, r4) :=
          match r3 with
          | e :: r3' =>
            if e = 'e' ∨ e = 'E' then
              let (sgn, r3'') :=
                match r3' with
                | s :: r3''' => if s = '+' ∨ s = '-' then ([s], r3''') else (([] : List Char), r3')
                | [] => (([] : List Char), r3')
              let (ds, r3x) := r3''.span Char.isDigit
              if ds = [] then (([] : List Char), r3) else (e :: (sgn ++ ds), r3x)
            else (([] : List Char), r3)
          | [] => (([] : List Char), r3)
        some (sign ++ intPart ++ frac ++ expPart, r4)
      else none
    else
      let (ds, r1) := r.span Char.isDigit
      let (intPart, r2) := (d :: ds, r1)
      let (frac, r3) :=
        match r2 with
        | '.' :: r2' =>
          let (ds2, r2'') := r2'.span Char.isDigit
          if ds2 = [] then (([] : List Char), r2) else ('.' :: ds2, r2'')
        | _ => (([] : List Char), r2)
      let (expPart, r4) :=
        match r3 with
        | e :: r3' =>
          if e = 'e' ∨ e = 'E' then
            let (sgn, r3'') :=
              match r3' with
              | s :: r3''' => if s = '+' ∨ s = '-' then ([s], r3''') else (([] : List Char), r3')
              | [] => (([] : List Char), r3')
            let (ds2, r3x) := r3''.span Char.isDigit
            if ds2 = [] then (([] : List Char), r3) else (e :: (sgn ++ ds2), r3x)
          else (([] : List Char), r3)
        | [] => (([] : List Char), r3)
      some (sign ++ intPart ++ frac ++ expPart, r4)

/-- Insert a key/value pair as a Python dict assignment does: an existing
key keeps its position and takes the new value, a new key is appended. -/
def insertPair (fs : List (String × Json)) (k : String) (v : Json) :
    List (String × Json) :=
  if fs.any (fun p => p.1 == k) then
    fs.map (fun p => if p.1 == k then (k, v) else p)
  else fs ++ [(k, v)]

/-- Does `p` occur at the start of `cs`? -/
def pfxOf (p : String) (cs : List Char) : Bool :=
  List.isPrefixOf p.data cs

mutual

/-- Parse one JSON value, modelling the Python scanner: string, object,
array, the literal words, then a number (`NaN` and the infinities are
accepted, as by default in Python).  Fuelled; every recursive call
decreases the fuel, and the top level supplies more fuel than any input
can consume. -/
def parseValue : Nat → List Char → Option (Json × List Char)
  | 0, _ => none
  | Nat.succ fuel, cs =>
    match cs with
    | [] => none
    | c :: rest =>
      if c = '"' then
        match parseStrBody [] rest with
        | some (s, r) => some (.str s, r)
        | none => none
      else if c = '{' then
        match skipWs rest with
        | [] => none
        | c2 :: r2 => if c2 = '}' then some (.obj [], r2) else parseMembers fuel [] (c2 :: r2)
      else if c = '[' then
        match skipWs rest with
        | [] => none
        | c2 :: r2 => if c2 = ']' then some (.arr [], r2) else parseItems fuel [] (c2 :: r2)
      else if pfxOf "null" cs then some (.null, cs.drop 4)
      else if pfxOf "true" cs then some (.bool true, cs.drop 4)
      else if pfxOf "false" cs then some (.bool false, cs.drop 5)
      else if pfxOf "NaN" cs then some (.num "NaN", cs.drop 3)
      else if pfxOf "Infinity" cs then some (.num "Infinity", cs.drop 8)
      else if pfxOf "-Infinity" cs then some (.num "-Infinity", cs.drop 9)
      else
        match lexNum cs with
        | some (lit, r) => some (.num ⟨lit⟩, r)
        | none => none

/-- Parse the members of a JSON object after its opening brace (the
non-empty case): key string, colon, value, then a comma or the closing
brace. -/
def parseMembers : Nat → List (String × Json) → List Char →
    Option (Json × List Char)
  | 0, _, _ => none
  | Nat.succ fuel, acc, cs =>
    match cs with
    | [] => none
    | c :: rest =>
      if c = '"' then
        match parseStrBody [] rest with
        | some (k, r1) =>
          match skipWs r1 with
          | [] => none
          | c2 :: r2 =>
            if c2 = ':' then
              match parseValue fuel (skipWs r2) with
              | some (v, r3) =>
                match skipWs r3 with
                | [] => none
                | c3 :: r4 =>
                  if c3 = ',' then parseMembers fuel (insertPair acc k v) (skipWs r4)
                  else if c3 = '}' then some (.obj (insertPair acc k v), r4)
                  else none
              | none => none
            else none
        | none => none
      else none

/-- Parse the items of a JSON array after its opening bracket (the
non-empty case). -/
def parseItems : Nat → List Json → List Char → Option (Json × List Char)
  | 0, _, _ => none
  | Nat.succ fuel, acc, cs =>
    match parseValue fuel cs with
    | some (v, r1) =>
      match skipWs r1 with
      | [] => none
      | c2 :: r2 =>
        if c2 = ',' then parseItems fuel (v :: acc) (skipWs r2)
        else if c2 = ']' then some (.arr (v :: acc).reverse, r2)
        else none
    | none => none

end

/-- Model of Python `json.loads`: skip leading whitespace, parse one
value, skip trailing whitespace, and require the input to be exhausted;
`none` is a `JSONDecodeError`. -/
def loads (s : String) : Option Json :=
  let cs := skipWs s.data
  match parseValue (cs.length + 1) cs with
  | some (j, rest) => if skipWs rest = [] then some j else none
  | none => none

/-- Hexadecimal digit characters, lowercase, as emitted by `\u00xx`
escapes of `json.dumps`. -/
def hexDigit (n : Nat) : Char :=
  "0123456789abcdef".data.getD n '0'

/-- Serialize one character of a JSON string as `json.dumps` with
`ensure_ascii=False` does: escape the quote, the backslash and control
characters (short escapes for the usual five), everything else verbatim. -/
def encChar (c : Char) : List Char :=
  if c = '"' then ['\\', '"']
  else if c = '\\' then ['\\', '\\']
  else if c = '\n' then ['\\', 'n']
  else if c = '\r' then ['\\', 'r']
  else if c = '\t' then ['\\', 't']
  else if c.toNat = 8 then ['\\', 'b']
  else if c.toNat = 12 then ['\\', 'f']
  else if c.toNat < 32 then
    ['\\', 'u', '0', '0', hexDigit (c.toNat / 16), hexDigit (c.toNat % 16)]
  else [c]

/-- Serialize the characters of a JSON string body. -/
def encChars : List Char → List Char
  | [] => []
  | c :: rest => encChar c ++ encChars rest

/-- Serialize a JSON string literal, quotes included. -/
def encodeString (s : String) : List Char :=
  '"' :: (encChars s.data ++ ['"'])

/-- Indentation emitted by `json.dumps(..., indent=2)` at nesting level
`lvl`. -/
def indentChars (lvl : Nat) : List Char :=
  List.replicate (2 * lvl) ' '

mutual

/-- Serialize a JSON value as `json.dumps(value, indent=2,
ensure_ascii=False)` does: empty containers inline, otherwise one element
per line with two-space indentation, `": "` after keys and `","` plus a
newline between elements. -/
def dumpVal : Json → Nat → List Char
  | .null, _ => ['n', 'u', 'l', 'l']
  | .bool true, _ => ['t', 'r', 'u', 'e']
  | .bool false, _ => ['f', 'a', 'l', 's', 'e']
  | .num lit, _ => lit.data
  | .str s, _ => encodeString s
  | .arr [], _ => ['[', ']']
  | .arr (x :: xs), lvl =>
    '[' :: '\n' :: (indentChars (lvl + 1) ++
      (dumpVal x (lvl + 1) ++ (dumpRest xs (lvl + 1) ++
        ('\n' :: (indentChars lvl ++ [']'])))))
  | .obj [], _ => ['{', '}']
  | .obj ((k, v) :: kvs), lvl =>
    '{' :: '\n' :: (indentChars (lvl + 1) ++
      (encodeString k ++ (':' :: ' ' :: (dumpVal v (lvl + 1) ++
        (dumpObjRest kvs (lvl + 1) ++ ('\n' :: (indentChars lvl ++ ['}'])))))))

/-- Serialize the remaining items of a non-empty array. -/
def dumpRest : List Json → Nat → List Char
  | [], _ => []
  | x :: xs, lvl =>
    ',' :: '\n' :: (indentChars lvl ++ (dumpVal x lvl ++ dumpRest xs lvl))

/-- Serialize the remaining members of a non-empty object. -/
def dumpObjRest : List (String × Json) → Nat → List Char
  | [], _ => []
  | (k, v) :: kvs, lvl =>
    ',' :: '\n' :: (indentChars lvl ++
      (encodeString k ++ (':' :: ' ' :: (dumpVal v lvl ++ dumpObjRest kvs lvl))))

end

/-- Model of `json.dumps(x, indent=2, ensure_ascii=False)` as called by
`save_users`. -/
def dumps (j : Json) : String :=
  ⟨dumpVal j 0⟩

/-- Outcome of one `requests.get` / `requests.put` call: a raised
`RequestException` (network error, timeout), or a response with a status
code and a body text. -/
inductive GetResult where
  | netErr
  | response (status : Nat) (body : String)
deriving Repr

/-- Model of `load_users` (bot.py lines 57-116), as a function of the
single GET response it observes.  A 200 response has its text parsed:
a JSON array is returned as is; a JSON object is queried for its
`users` key, whose value is returned; everything else - parse failure,
object without `users`, non-array non-object value, 404, any other
status, or a network error - yields the empty list.  The Python function
catches every exception, so it is total, like this model. -/
def load_users (r : GetResult) : Json :=
  match r with
  | .netErr => Json.arr []
  | .response status body =>
    if status = 200 then
      match loads body with
      | some data =>
        match data with
        | .arr xs => Json.arr xs
        | .obj fields =>
          match fields.lookup "users" with
          | some users_list => users_list
          | none => Json.arr []
        | _ => Json.arr []
      | none => Json.arr []
    else if status = 404 then Json.arr []
    else Json.arr []

/-- Can `sha[:20]` be evaluated?  Python slicing works on sequences
(`str`, `list`); on any other value the logging line in `save_users`
raises a `TypeError`, which the fallback handler turns into `False`. -/
def shaSliceable : Json → Bool
  | .str _ => true
  | .arr _ => true
  | _ => false

/-- Model of `save_users` (bot.py lines 118-178), as a function of the
users argument, the metadata GET response, and the PUT outcome (`none`
is a network error during the PUT).  The metadata fetch must return 200
with a JSON object body (`.json()` raises on malformed bodies and
`.get` on non-dict values, both caught and turned into `False`); a 404
means the document does not exist and fails outright; the PUT must
return 200 or 201.  Every failure path resolves to `false`. -/
def save_users (users : List Json) (metaResp : GetResult)
    (putStatus : Option Nat) : Bool :=
  match metaResp with
  | .netErr => false
  | .response status body =>
    if status = 200 then
      match loads body with
      | some (.obj fields) =>
        let sha := (fields.lookup "sha").getD (Json.str "")
        if shaSliceable sha then
          let _content := dumps (Json.arr users)
          match putStatus with
          | some s => if s = 200 ∨ s = 201 then true else false
          | none => false
        else false
      | some _ => false
      | none => false
    else if status = 404 then false
    else false

/-- One managed credential record, with the five fields the bot writes
(`new_user` in `handle_offline_callback`).  The program's own records
always carry exactly these fields; loaded collections are viewed through
this structure in the conversation-engine model. -/
structure Record where
  id : String
  username : String
  password : String
  expiresAt : String
  allowOffline : Bool
deriving DecidableEq, Repr

/-- Serialize a record as the Python dict literal in the source, keys in
insertion order. -/
def Record.toJson (r : Record) : Json :=
  Json.obj [("id", Json.str r.id), ("username", Json.str r.username),
    ("password", Json.str r.password), ("expiresAt", Json.str r.expiresAt),
    ("allowOffline", Json.bool r.allowOffline)]

/-- Read a record back from a JSON object. -/
def Record.fromJson? (j : Json) : Option Record :=
  match j with
  | .obj fields =>
    match fields.lookup "id", fields.lookup "username",
        fields.lookup "password", fields.lookup "expiresAt",
        fields.lookup "allowOffline" with
    | some (.str i), some (.str u), some (.str p), some (.str e),
        some (.bool b) => some ⟨i, u, p, e, b⟩
    | _, _, _, _, _ => none
  | _ => none

/-- The default expiration date (`DEFAULT_DATE` in bot.py). -/
def DEFAULT_DATE : String := "2025-12-12"

/-- Labels of the conversation states stored under the `state` key of a
per-operator dict in `user_states`. -/
inductive StateLabel where
  | awaiting_device_id
  | awaiting_username
  | awaiting_password
  | awaiting_expiration
  | awaiting_offline
  | confirm_duplicate
  | awaiting_remove_username
  | awaiting_remove_choice
  | confirm_remove_single
  | confirm_remove_all
deriving DecidableEq, Repr

/-- One operator's conversation dict: the `state` label plus the
accumulator keys the flow fills in.  `none` models an absent dict key;
the handlers read absent keys as Python `KeyError`s (modelled below as
internal-error outcomes). -/
structure ConvState where
  state : StateLabel
  device_id : Option String := none
  username : Option String := none
  password : Option String := none
  expiresAt : Option String := none
  allowOffline : Option Bool := none
  remove_username : Option String := none
  matching_users : Option (List Record) := none
  remove_user : Option Record := none
deriving DecidableEq, Repr

/-- The `user_states` dict, keyed by the chat user id. -/
abbrev UserStates := List (Nat × ConvState)

/-- Dict lookup `user_states.get(user_id)`. -/
def getState (t : UserStates) (uid : Nat) : Option ConvState :=
  List.lookup uid t

/-- Dict assignment `user_states[user_id] = v`: an existing key keeps its
position and takes the new value, a new key is appended. -/
def setState (t : UserStates) (uid : Nat) (v : ConvState) : UserStates :=
  if t.any (fun p => p.1 == uid) then
    t.map (fun p => if p.1 = uid then (uid, v) else p)
  else t ++ [(uid, v)]

/-- Dict removal `user_states.pop(user_id, None)`. -/
def popState (t : UserStates) (uid : Nat) : UserStates :=
  t.filter (fun p => p.1 != uid)

/-- The distinct chat replies a handler can emit.  Only their identity
matters here, not the message text. -/
inductive Reply where
  | silent
  | promptDeviceId
  | promptUsername
  | promptPassword
  | promptExpiration
  | promptRemoveUsername
  | askOffline
  | invalidDate
  | useMenu
  | cancelled
  | helpText
  | debugText
  | menuText
  | listText
  | noUsersFound
  | userNotFound (username : String)
  | chooseAmong (n : Nat)
  | confirmSingle (r : Record)
  | confirmAll (username : String)
  | invalidChoice
  | invalidInput
  | duplicateWarning
  | accountCreated (r : Record)
  | accountCreatedAnyway (r : Record)
  | saveFailed
  | removedOk
  | removeFailed
  | removedAllOk (username : String)
  | removeAllFailed
  | internalError
deriving DecidableEq, Repr

/-- The gateway results a handler observes during one event: the
collection `load_users()` would return (viewed as records - the records
the program writes always carry exactly the five fields), and whether
`save_users(...)` would succeed. -/
structure Env where
  loaded : List Record
  saveOk : Bool
deriving Repr

/-- Observable result of handling one event: the updated `user_states`
table, the reply sent, the collection passed to `save_users` if a save
was attempted, and whether `load_users` was called. -/
structure Outcome where
  table : UserStates
  reply : Reply
  savedWith : Option (List Record)
  didLoad : Bool

/-- Characters removed by Python `str.strip()` (restricted to ASCII
whitespace, which is all the conversation flows use). -/
def pySpace (c : Char) : Bool :=
  c = ' ' || c = '\t' || c = '\n' || c = '\r' || c.toNat = 11 || c.toNat = 12

/-- Remove leading stripped characters. -/
def dropLeading : List Char → List Char
  | [] => []
  | c :: rest => if pySpace c then dropLeading rest else c :: rest

/-- Python `str.strip()` (restricted to ASCII whitespace, which is all
the conversation flows use). -/
def pyStrip (s : String) : String :=
  ⟨(dropLeading (dropLeading s.data.reverse).reverse)⟩

/-- Python `str.lower()` (restricted to ASCII letters). -/
def pyLower (s : String) : String := ⟨s.data.map Char.toLower⟩

/-- Python `str.isdigit()` (restricted to ASCII digits). -/
def pyIsDigit (s : String) : Bool :=
  s ≠ "" && s.data.all Char.isDigit

/-- Numeric value of a digit string, as Python `int(...)`. -/
def natOfDigits (s : String) : Nat :=
  s.data.foldl (fun n c => n * 10 + (c.toNat - 48)) 0

/-- Month alternation of CPython's `%m` pattern:
`1[0-2]|0[1-9]|[1-9]`, anchored by the surrounding format. -/
def parseMonth? : List Char → Option Nat
  | [c] => if '1' ≤ c ∧ c ≤ '9' then some (c.toNat - 48) else none
  | [a, b] =>
    if a = '1' ∧ '0' ≤ b ∧ b ≤ '2' then some (10 + (b.toNat - 48))
    else if a = '0' ∧ '1' ≤ b ∧ b ≤ '9' then some (b.toNat - 48)
    else none
  | _ => none

/-- Day alternation of CPython's `%d` pattern:
`3[01]|[12]\d|0[1-9]|[1-9]`, anchored by the surrounding format. -/
def parseDay? : List Char → Option Nat
  | [c] => if '1' ≤ c ∧ c ≤ '9' then some (c.toNat - 48) else none
  | [a, b] =>
    if a = '3' ∧ (b = '0' ∨ b = '1') then some (30 + (b.toNat - 48))
    else if (a = '1' ∨ a = '2') ∧ b.isDigit then
      some ((a.toNat - 48) * 10 + (b.toNat - 48))
    else if a = '0' ∧ '1' ≤ b ∧ b ≤ '9' then some (b.toNat - 48)
    else none
  | _ => none

/-- Split a character list at hyphens, as the date format's literal
separators do. -/
def splitDash : List Char → List (List Char)
  | [] => [[]]
  | c :: rest =>
    match splitDash rest with
    | [] => [[c]]
    | seg :: segs =>
      if c = '-' then [] :: seg :: segs else (c :: seg) :: segs

/-- Days in a month of the proleptic Gregorian calendar, as
`datetime.date` validates. -/
def daysInMonth (y m : Nat) : Nat :=
  if m = 2 then
    if y % 4 = 0 ∧ (y % 100 ≠ 0 ∨ y % 400 = 0) then 29 else 28
  else if m = 4 ∨ m = 6 ∨ m = 9 ∨ m = 11 then 30
  else 31

/-- Model of `datetime.strptime(s, "%Y-%m-%d")` succeeding: a full match
of four digits, a month, and a day (separated by hyphens, nothing left
over), with the day in range for the month and the year at least 1
(`datetime.MINYEAR`).  Restricted to ASCII digits. -/
def isValidDate (s : String) : Bool :=
  match splitDash s.data with
  | [ys, ms, ds] =>
    if ys.length = 4 ∧ ys.all Char.isDigit then
      match parseMonth? ms, parseDay? ds with
      | some m, some d =>
        let y := ys.foldl (fun n c => n * 10 + (c.toNat - 48)) 0
        decide (1 ≤ y ∧ d ≤ daysInMonth y m)
      | _, _ => false
    else false
  | _ => false

/-- Model of `handle_message` (bot.py lines 430-599): free-text input is
stripped, then dispatched on the operator's conversation state.  Without
a state entry the generic use-the-menu prompt is sent and nothing
changes.  An accumulator key read by the source that is absent
(`KeyError` with no enclosing `try`) is the `internalError` outcome with
the table is left as the source leaves it at that point. -/
def handle_message (uid : Nat) (rawText : String) (t : UserStates)
    (env : Env) : Outcome :=
  let message_text := pyStrip rawText
  match getState t uid with
  | none => ⟨t, .useMenu, none, false⟩
  | some cs =>
    match cs.state with
    | .awaiting_device_id =>
      ⟨setState t uid { cs with device_id := some message_text, state := .awaiting_username }, .promptUsername, none, false⟩
    | .awaiting_username =>
      ⟨setState t uid { cs with username := some message_text, state := .awaiting_password }, .promptPassword, none, false⟩
    | .awaiting_password =>
      ⟨setState t uid { cs with password := some message_text, state := .awaiting_expiration }, .promptExpiration, none, false⟩
    | .awaiting_expiration =>
      let expiresAt := if message_text = "" then DEFAULT_DATE else message_text
      if isValidDate expiresAt then
        ⟨setState t uid { cs with expiresAt := some expiresAt, state := .awaiting_offline }, .askOffline, none, false⟩
      else ⟨t, .invalidDate, none, false⟩
    | .awaiting_remove_username =>
      let username := message_text
      let users := env.loaded
      if users = [] then ⟨popState t uid, .noUsersFound, none, true⟩
      else
        let matching_users := users.filter (fun u => u.username == username)
        if matching_users = [] then
          ⟨popState t uid, .userNotFound username, none, true⟩
        else if matching_users.length > 1 then
          ⟨setState t uid { cs with remove_username := some username, matching_users := some matching_users, state := .awaiting_remove_choice },
            .chooseAmong matching_users.length, none, true⟩
        else
          match matching_users.head? with
          | some u =>
            ⟨setState t uid { cs with remove_user := some u, state := .confirm_remove_single }, .confirmSingle u, none, true⟩
          | none => ⟨t, .internalError, none, true⟩
    | .awaiting_remove_choice =>
      let choice := pyLower message_text
      if choice = "all" then
        let t' := setState t uid { cs with state := .confirm_remove_all }
        match cs.remove_username with
        | some un => ⟨t', .confirmAll un, none, false⟩
        | none => ⟨t', .internalError, none, false⟩
      else if pyIsDigit choice then
        let idx : Int := (natOfDigits choice : Int) - 1
        match cs.matching_users with
        | none => ⟨t, .internalError, none, false⟩
        | some matching_users =>
          if 0 ≤ idx ∧ idx < matching_users.length then
            match matching_users[idx.toNat]? with
            | some u =>
              ⟨setState t uid { cs with remove_user := some u, state := .confirm_remove_single }, .confirmSingle u, none, false⟩
            | none => ⟨t, .internalError, none, false⟩
          else ⟨t, .invalidChoice, none, false⟩
      else ⟨t, .invalidInput, none, false⟩
    | _ => ⟨t, .silent, none, false⟩

/-- Model of `button_handler` (bot.py lines 326-368): menu buttons.
`add_user` and `remove_user` replace the operator's dict with a fresh
one holding only the state label; `cancel` removes it; `list_users`
loads; `debug` loads and, when the collection is non-empty, test-saves
it back unchanged. -/
def button_handler (uid : Nat) (data : String) (t : UserStates)
    (env : Env) : Outcome :=
  if data = "add_user" then
    ⟨setState t uid { state := .awaiting_device_id }, .promptDeviceId, none, false⟩
  else if data = "remove_user" then
    ⟨setState t uid { state := .awaiting_remove_username },
      .promptRemoveUsername, none, false⟩
  else if data = "list_users" then ⟨t, .listText, none, true⟩
  else if data = "help" then ⟨t, .helpText, none, false⟩
  else if data = "debug" then
    ⟨t, .debugText, if env.loaded = [] then none else some env.loaded, true⟩
  else if data = "cancel" then ⟨popState t uid, .cancelled, none, false⟩
  else ⟨t, .silent, none, false⟩

/-- Model of `handle_offline_callback` (bot.py lines 601-691): ignored
unless the operator is in `awaiting_offline`; otherwise loads the
collection, checks for a username+password duplicate, and either enters
`confirm_duplicate` (nothing saved) or appends the accumulated record
and saves, removing the state entry whether the save succeeds or fails.
The whole commit is inside `try`, so a missing accumulator key is caught
and also removes the entry. -/
def handle_offline_callback (uid : Nat) (data : String) (t : UserStates)
    (env : Env) : Outcome :=
  match getState t uid with
  | none => ⟨t, .silent, none, false⟩
  | some cs =>
    if cs.state = .awaiting_offline then
      match (if data = "offline_yes" then some true
             else if data = "offline_no" then some false
             else none : Option Bool) with
      | none => ⟨t, .silent, none, false⟩
      | some allowOffline =>
        let users := env.loaded
        match cs.username, cs.password with
        | some un, some pw =>
          let duplicate := users.any (fun u => u.username == un && u.password == pw)
          if duplicate then
            ⟨setState t uid { cs with allowOffline := some allowOffline, state := .confirm_duplicate }, .duplicateWarning, none, true⟩
          else
            match cs.device_id, cs.expiresAt with
            | some did, some exp =>
              let new_user : Record := ⟨did, un, pw, exp, allowOffline⟩
              let users' := users ++ [new_user]
              if env.saveOk then
                ⟨popState t uid, .accountCreated new_user, some users', true⟩
              else ⟨popState t uid, .saveFailed, some users', true⟩
            | _, _ => ⟨popState t uid, .internalError, none, true⟩
        | _, _ => ⟨popState t uid, .internalError, none, true⟩
    else ⟨t, .silent, none, false⟩

/-- Model of `handle_confirm_callback` (bot.py lines 693-786):
confirmation buttons, each a no-op unless the operator's state matches;
the remove confirmations filter the freshly loaded collection (by full
value equality for a single target, by username for remove-all) and
save; `add_anyway` appends the accumulated record and saves; `menu`
shows the menu and removes any state entry.  The accumulator reads here
have no enclosing `try`, so a missing key leaves the table unchanged
(for `confirm_remove` / `confirm_remove_all` the `KeyError` fires before
the load, for `add_anyway` after it). -/
def handle_confirm_callback (uid : Nat) (data : String) (t : UserStates)
    (env : Env) : Outcome :=
  if data = "confirm_remove" then
    match getState t uid with
    | some cs =>
      if cs.state = .confirm_remove_single then
        match cs.remove_user with
        | some user_to_remove =>
          let users' := env.loaded.filter (fun u => u != user_to_remove)
          if env.saveOk then ⟨popState t uid, .removedOk, some users', true⟩
          else ⟨popState t uid, .removeFailed, some users', true⟩
        | none => ⟨t, .internalError, none, false⟩
      else ⟨t, .silent, none, false⟩
    | none => ⟨t, .silent, none, false⟩
  else if data = "confirm_remove_all" then
    match getState t uid with
    | some cs =>
      if cs.state = .confirm_remove_all then
        match cs.remove_username with
        | some username =>
          let users' := env.loaded.filter (fun u => u.username != username)
          if env.saveOk then
            ⟨popState t uid, .removedAllOk username, some users', true⟩
          else ⟨popState t uid, .removeAllFailed, some users', true⟩
        | none => ⟨t, .internalError, none, false⟩
      else ⟨t, .silent, none, false⟩
    | none => ⟨t, .silent, none, false⟩
  else if data = "add_anyway" then
    match getState t uid with
    | some cs =>
      if cs.state = .confirm_duplicate then
        match cs.device_id, cs.username, cs.password, cs.expiresAt,
            cs.allowOffline with
        | some did, some un, some pw, some exp, some off =>
          let new_user : Record := ⟨did, un, pw, exp, off⟩
          let users' := env.loaded ++ [new_user]
          if env.saveOk then
            ⟨popState t uid, .accountCreatedAnyway new_user, some users', true⟩
          else ⟨popState t uid, .saveFailed, some users', true⟩
        | _, _, _, _, _ => ⟨t, .internalError, none, true⟩
      else ⟨t, .silent, none, false⟩
    | none => ⟨t, .silent, none, false⟩
  else if data = "menu" then ⟨popState t uid, .menuText, none, false⟩
  else ⟨t, .silent, none, false⟩

/-- One inbound chat event: a free-text message or a button press. -/
inductive Event where
  | message (text : String)
  | callback (data : String)

/-- The handler registration (bot.py lines 821-825): callback payloads
are routed by the three anchored alternation patterns, free text goes to
`handle_message`. -/
def dispatch (uid : Nat) (ev : Event) (t : UserStates) (env : Env) : Outcome :=
  match ev with
  | .message text => handle_message uid text t env
  | .callback data =>
    if data ∈ ["add_user", "remove_user", "list_users", "help", "debug", "cancel"] then
      button_handler uid data t env
    else if data ∈ ["offline_yes", "offline_no"] then
      handle_offline_callback uid data t env
    else if data ∈ ["confirm_remove", "confirm_remove_all", "add_anyway", "menu"] then
      handle_confirm_callback uid data t env
    else ⟨t, .silent, none, false⟩

/-! ### Helper lemmas about the state table -/

theorem lookup_map_set (uid : Nat) (v : ConvState) :
    ∀ t : UserStates, t.any (fun p => p.1 == uid) = true →
      List.lookup uid (t.map (fun p => if p.1 = uid then (uid, v) else p)) = some v := by
  intro t
  induction t with
  | nil => simp
  | cons p t ih =>
    intro h
    rw [List.map_cons]
    by_cases hp : p.1 = uid
    · rw [if_pos hp, List.lookup]
      simp
    · rw [if_neg hp, List.lookup]
      have hb : (p.1 == uid) = false := beq_eq_false_iff_ne.mpr hp
      have hb2 : (uid == p.1) = false := beq_eq_false_iff_ne.mpr (fun hc => hp hc.symm)
      rw [hb2]
      simp only [List.any_cons, hb, Bool.false_or] at h
      exact ih h

theorem lookup_append_single (uid : Nat) (v : ConvState) :
    ∀ t : UserStates, t.any (fun p => p.1 == uid) = false →
      List.lookup uid (t ++ [(uid, v)]) = some v := by
  intro t
  induction t with
  | nil => simp [List.lookup]
  | cons p t ih =>
    intro h
    simp only [List.any_cons, Bool.or_eq_false_iff] at h
    obtain ⟨h1, h2⟩ := h
    have hb2 : (uid == p.1) = false :=
      beq_eq_false_iff_ne.mpr (fun hc => (ne_of_beq_false h1) hc.symm)
    rw [List.cons_append, List.lookup, hb2]
    exact ih h2

theorem getState_setState_self (t : UserStates) (uid : Nat) (v : ConvState) :
    getState (setState t uid v) uid = some v := by
  unfold getState setState
  by_cases h : t.any (fun p => p.1 == uid) = true
  · rw [if_pos h]
    exact lookup_map_set uid v t h
  · rw [if_neg h]
    exact lookup_append_single uid v t (Bool.not_eq_true _ ▸ h)

theorem getState_popState_self (t : UserStates) (uid : Nat) :
    getState (popState t uid) uid = none := by
  unfold getState popState
  induction t with
  | nil => rfl
  | cons p t ih =>
    by_cases hp : p.1 = uid
    · have hf : (p.1 != uid) = false := by simp [hp]
      rw [List.filter_cons, hf]
      exact ih
    · have hbt : (p.1 != uid) = true := by simp [hp]
      have hb2 : (uid == p.1) = false := beq_eq_false_iff_ne.mpr (fun hc => hp hc.symm)
      rw [List.filter_cons, hbt]
      simp only [if_true, List.lookup, hb2]
      exact ih

/-! ### C1: Load is fail-soft and total -/

/-- C1: `load_users` is fail-soft and total: a network error, a 404, any
other non-200 status, or a 200 body that is not parseable JSON all
return the empty collection.  The model, like the Python function with
its blanket exception handlers, is a total function, so no exception
reaches the caller. -/
theorem load_users_fail_soft :
    load_users GetResult.netErr = Json.arr [] ∧
    (∀ body, load_users (GetResult.response 404 body) = Json.arr []) ∧
    (∀ status body, status ≠ 200 →
      load_users (GetResult.response status body) = Json.arr []) ∧
    (∀ body, loads body = none →
      load_users (GetResult.response 200 body) = Json.arr []) := by
  refine ⟨rfl, ?_, ?_, ?_⟩
  · intro body
    rfl
  · intro status body h
    simp only [load_users]
    rw [if_neg h]
    split <;> rfl
  · intro body h
    simp only [load_users]
    rw [if_pos trivial, h]

/-- Witness for C1 at concrete responses. -/
theorem load_users_fail_soft_witness :
    load_users (GetResult.response 404 "missing") = Json.arr [] ∧
    load_users (GetResult.response 500 "server error") = Json.arr [] ∧
    load_users (GetResult.response 200 "not json") = Json.arr [] :=
  ⟨load_users_fail_soft.2.1 "missing",
   load_users_fail_soft.2.2.1 500 "server error" (by decide),
   load_users_fail_soft.2.2.2 "not json" (by rfl)⟩

/-! ### C6: Load shape handling -/

/-- C6: on a 200 response with well-formed JSON, an array is returned
unchanged (hence same length, same elements, same order); an object with
a `users` field returns that field's value; an object without a `users`
field, or a non-array non-object value, yields the empty collection. -/
theorem load_users_shapes :
    (∀ body xs, loads body = some (Json.arr xs) →
      load_users (GetResult.response 200 body) = Json.arr xs) ∧
    (∀ body fields v, loads body = some (Json.obj fields) →
      fields.lookup "users" = some v →
      load_users (GetResult.response 200 body) = v) ∧
    (∀ body fields, loads body = some (Json.obj fields) →
      fields.lookup "users" = none →
      load_users (GetResult.response 200 body) = Json.arr []) ∧
    (∀ body j, loads body = some j →
      (∀ xs, j ≠ Json.arr xs) → (∀ fs, j ≠ Json.obj fs) →
      load_users (GetResult.response 200 body) = Json.arr []) := by
  refine ⟨?_, ?_, ?_, ?_⟩
  · intro body xs h
    simp only [load_users]
    rw [if_pos trivial, h]
  · intro body fields v h hv
    simp only [load_users]
    rw [if_pos trivial, h]
    simp only [hv]
  · intro body fields h hv
    simp only [load_users]
    rw [if_pos trivial, h]
    simp only [hv]
  · intro body j h ha ho
    simp only [load_users]
    rw [if_pos trivial, h]
    cases j with
    | arr xs => exact absurd rfl (ha xs)
    | obj fs => exact absurd rfl (ho fs)
    | null => rfl
    | bool b => rfl
    | num lit => rfl
    | str s => rfl

/-- Witness for C6 at concrete documents of each shape. -/
theorem load_users_shapes_witness :
    load_users (GetResult.response 200 "[true, null]") =
      Json.arr [Json.bool true, Json.null] ∧
    load_users (GetResult.response 200 "\x7b\"users\": [false]\x7d") =
      Json.arr [Json.bool false] ∧
    load_users (GetResult.response 200 "\x7b\"other\": 1\x7d") = Json.arr [] ∧
    load_users (GetResult.response 200 "42") = Json.arr [] :=
  ⟨load_users_shapes.1 _ [Json.bool true, Json.null] (by rfl),
   load_users_shapes.2.1 _ [("users", Json.arr [Json.bool false])]
     (Json.arr [Json.bool false]) (by rfl) (by rfl),
   load_users_shapes.2.2.1 _ [("other", Json.num "1")] (by rfl) (by rfl),
   load_users_shapes.2.2.2 _ (Json.num "42") (by rfl)
     (fun xs h => by cases h) (fun fs h => by cases h)⟩

/-! ### C2: Save returns a boolean on every failure path -/

/-- C2: `save_users` returns `false` when the metadata fetch reports the
document missing (404), `false` on any other non-200 metadata status,
`false` on a network error in either request, `false` when the update
request returns a status other than 200 or 201, and returns `true` only
when the update request succeeds with 200 or 201.  The model, like the
Python function with its blanket exception handlers, is total. -/
theorem save_users_boolean :
    (∀ users body put, save_users users (GetResult.response 404 body) put = false) ∧
    (∀ users status body put, status ≠ 200 →
      save_users users (GetResult.response status body) put = false) ∧
    (∀ users put, save_users users GetResult.netErr put = false) ∧
    (∀ users meta, save_users users meta none = false) ∧
    (∀ users meta s, s ≠ 200 → s ≠ 201 → save_users users meta (some s) = false) ∧
    (∀ users meta put, save_users users meta put = true →
      ∃ s, put = some s ∧ (s = 200 ∨ s = 201)) := by
  refine ⟨?_, ?_, ?_, ?_, ?_, ?_⟩
  · intro users body put
    rfl
  · intro users status body put h
    simp only [save_users]
    rw [if_neg h]
    split <;> rfl
  · intro users put
    rfl
  · intro users meta
    cases meta with
    | netErr => rfl
    | response status body =>
      simp only [save_users]
      split
      · split
        · split <;> rfl
        · rfl
        · rfl
      · split <;> rfl
  · intro users meta s h200 h201
    cases meta with
    | netErr => rfl
    | response status body =>
      simp only [save_users]
      split
      · split
        · split
          · rw [if_neg (by simp [h200, h201])]
          · rfl
        · rfl
        · rfl
      · split <;> rfl
  · intro users meta put h
    cases meta with
    | netErr => exact absurd h (by simp [save_users])
    | response status body =>
      simp only [save_users] at h
      by_cases hs : status = 200
      · rw [if_pos hs] at h
        split at h
        · rename_i fields
          split at h
          · split at h
            · rename_i s
              refine ⟨s, rfl, ?_⟩
              by_cases h2 : s = 200
              · exact Or.inl h2
              · by_cases h3 : s = 201
                · exact Or.inr h3
                · rw [if_neg (by simp [h2, h3])] at h
                  exact absurd h (by simp)
            · exact absurd h (by simp)
          · exact absurd h (by simp)
        · exact absurd h (by simp)
        · exact absurd h (by simp)
      · rw [if_neg hs] at h
        split at h <;> exact absurd h (by simp)

/-- Witness for C2 at concrete responses. -/
theorem save_users_boolean_witness :
    save_users [] (GetResult.response 404 "gone") (some 200) = false ∧
    save_users [] (GetResult.response 403 "forbidden") (some 200) = false ∧
    save_users [] GetResult.netErr (some 200) = false ∧
    save_users [] (GetResult.response 200 "\x7b\"sha\": \"abc\"\x7d") none = false ∧
    save_users [] (GetResult.response 200 "\x7b\"sha\": \"abc\"\x7d") (some 422) = false ∧
    (save_users [] (GetResult.response 200 "\x7b\"sha\": \"abc\"\x7d") (some 201) = true →
      ∃ s, (some 201 : Option Nat) = some s ∧ (s = 200 ∨ s = 201)) :=
  ⟨save_users_boolean.1 [] "gone" (some 200),
   save_users_boolean.2.1 [] 403 "forbidden" (some 200) (by decide),
   save_users_boolean.2.2.1 [] (some 200),
   save_users_boolean.2.2.2.1 [] (GetResult.response 200 "\x7b\"sha\": \"abc\"\x7d"),
   save_users_boolean.2.2.2.2.1 [] (GetResult.response 200 "\x7b\"sha\": \"abc\"\x7d")
     422 (by decide) (by decide),
   save_users_boolean.2.2.2.2.2 [] (GetResult.response 200 "\x7b\"sha\": \"abc\"\x7d")
     (some 201)⟩

/-! ### C7: Expiration-date input handling -/

/-- C7: in `awaiting_expiration`, empty (stripped) input stores the
fixed default date `2025-12-12` and advances to `awaiting_offline`;
input that does not parse as `YYYY-MM-DD` re-prompts and leaves the
table (state and accumulator) untouched; parsing input is stored as
`expiresAt` and the state advances to `awaiting_offline`. -/
theorem expiration_handling :
    (∀ t uid cs env text, getState t uid = some cs →
      cs.state = StateLabel.awaiting_expiration → pyStrip text = "" →
      getState (handle_message uid text t env).table uid =
        some { cs with expiresAt := some "2025-12-12", state := StateLabel.awaiting_offline }) ∧
    (∀ t uid cs env text, getState t uid = some cs →
      cs.state = StateLabel.awaiting_expiration → pyStrip text ≠ "" →
      isValidDate (pyStrip text) = false →
      handle_message uid text t env = ⟨t, Reply.invalidDate, none, false⟩) ∧
    (∀ t uid cs env text, getState t uid = some cs →
      cs.state = StateLabel.awaiting_expiration → pyStrip text ≠ "" →
      isValidDate (pyStrip text) = true →
      getState (handle_message uid text t env).table uid =
        some { cs with expiresAt := some (pyStrip text), state := StateLabel.awaiting_offline }) := by
  refine ⟨?_, ?_, ?_⟩
  · intro t uid cs env text hget hst he
    have hvalid : isValidDate DEFAULT_DATE = true := rfl
    simp only [handle_message, hget, hst, he, if_pos, if_true, DEFAULT_DATE,
      hvalid, reduceIte]
    exact getState_setState_self t uid _
  · intro t uid cs env text hget hst he hbad
    simp only [handle_message, hget, hst, if_neg he, hbad, Bool.false_eq_true,
      if_false, reduceIte]
  · intro t uid cs env text hget hst he hgood
    simp only [handle_message, hget, hst, if_neg he, hgood, if_true, reduceIte]
    exact getState_setState_self t uid _

/-- Witness for C7 at concrete inputs. -/
theorem expiration_handling_witness :
    getState (handle_message 1 "  " [(1, { state := StateLabel.awaiting_expiration })]
        ⟨[], true⟩).table 1 =
      some { state := StateLabel.awaiting_offline, expiresAt := some "2025-12-12" } ∧
    handle_message 1 "soon" [(1, { state := StateLabel.awaiting_expiration })] ⟨[], true⟩ =
      ⟨[(1, { state := StateLabel.awaiting_expiration })], Reply.invalidDate, none, false⟩ ∧
    getState (handle_message 1 "2026-01-31" [(1, { state := StateLabel.awaiting_expiration })]
        ⟨[], true⟩).table 1 =
      some { state := StateLabel.awaiting_offline, expiresAt := some "2026-01-31" } :=
  ⟨expiration_handling.1 _ 1 _ _ "  " (by rfl) (by rfl) (by rfl),
   expiration_handling.2.1 _ 1 _ _ "soon" (by rfl) (by rfl) (by decide) (by rfl),
   expiration_handling.2.2 _ 1 _ _ "2026-01-31" (by rfl) (by rfl) (by decide) (by rfl)⟩

/-! ### C3: Duplicate detection and add-anyway confirmation -/

/-- C3: when the accumulated username and password both match an
existing record, the offline-choice callback enters `confirm_duplicate`
and saves nothing; the record is appended and saved only by the
`add_anyway` confirmation, and the appended record carries exactly the
accumulated device id, username, password, expiration and offline
flag. -/
theorem duplicate_add_confirmation :
    (∀ t uid cs env d un pw, getState t uid = some cs →
      cs.state = StateLabel.awaiting_offline →
      cs.username = some un → cs.password = some pw →
      (d = "offline_yes" ∨ d = "offline_no") →
      (∃ u ∈ env.loaded, u.username = un ∧ u.password = pw) →
      (∃ b, getState (handle_offline_callback uid d t env).table uid =
          some { cs with allowOffline := some b, state := StateLabel.confirm_duplicate }) ∧
      (handle_offline_callback uid d t env).savedWith = none) ∧
    (∀ t uid cs env did un pw exp off, getState t uid = some cs →
      cs.state = StateLabel.confirm_duplicate →
      cs.device_id = some did → cs.username = some un → cs.password = some pw →
      cs.expiresAt = some exp → cs.allowOffline = some off →
      (handle_confirm_callback uid "add_anyway" t env).savedWith =
        some (env.loaded ++ [⟨did, un, pw, exp, off⟩])) := by
  constructor
  · intro t uid cs env d un pw hget hst hun hpw hd hdup
    have hany : env.loaded.any (fun u => u.username == un && u.password == pw) = true := by
      rw [List.any_eq_true]
      obtain ⟨u, hu, h1, h2⟩ := hdup
      exact ⟨u, hu, by simp [h1, h2]⟩
    rcases hd with rfl | rfl
    · simp only [handle_offline_callback, hget, if_pos hst, hun, hpw, hany,
        if_true, reduceIte]
      exact ⟨⟨true, getState_setState_self t uid _⟩, by trivial⟩
    · simp only [handle_offline_callback, hget, if_pos hst, hun, hpw, hany,
        if_true, reduceIte]
      exact ⟨⟨false, getState_setState_self t uid _⟩, by trivial⟩
  · intro t uid cs env did un pw exp off hget hst hdid hun hpw hexp hoff
    simp only [handle_confirm_callback]
    rw [if_neg (by decide : ¬("add_anyway" = "confirm_remove")),
      if_neg (by decide : ¬("add_anyway" = "confirm_remove_all")),
      if_pos trivial]
    simp only [hget, if_pos hst, hdid, hun, hpw, hexp, hoff]
    split <;> rfl

/-- Witness for C3: a duplicate is detected, then added anyway. -/
theorem duplicate_add_confirmation_witness :
    (∃ b, getState (handle_offline_callback 1 "offline_yes"
        [(1, { state := StateLabel.awaiting_offline, device_id := some "dev", username := some "u", password := some "p", expiresAt := some "2025-12-12" })]
        ⟨[⟨"old", "u", "p", "2026-01-01", false⟩], true⟩).table 1 =
      some { state := StateLabel.confirm_duplicate, device_id := some "dev", username := some "u", password := some "p", expiresAt := some "2025-12-12", allowOffline := some b }) ∧
    (handle_offline_callback 1 "offline_yes"
        [(1, { state := StateLabel.awaiting_offline, device_id := some "dev", username := some "u", password := some "p", expiresAt := some "2025-12-12" })]
        ⟨[⟨"old", "u", "p", "2026-01-01", false⟩], true⟩).savedWith = none ∧
    (handle_confirm_callback 1 "add_anyway"
        [(1, { state := StateLabel.confirm_duplicate, device_id := some "dev", username := some "u", password := some "p", expiresAt := some "2025-12-12", allowOffline := some true })]
        ⟨[⟨"old", "u", "p", "2026-01-01", false⟩], true⟩).savedWith =
      some [⟨"old", "u", "p", "2026-01-01", false⟩, ⟨"dev", "u", "p", "2025-12-12", true⟩] := by
  have h1 := duplicate_add_confirmation.1
    [(1, { state := StateLabel.awaiting_offline, device_id := some "dev", username := some "u", password := some "p", expiresAt := some "2025-12-12" })]
    1 { state := StateLabel.awaiting_offline, device_id := some "dev", username := some "u", password := some "p", expiresAt := some "2025-12-12" }
    ⟨[⟨"old", "u", "p", "2026-01-01", false⟩], true⟩ "offline_yes" "u" "p"
    (by rfl) (by rfl) (by rfl) (by rfl) (Or.inl rfl)
    ⟨⟨"old", "u", "p", "2026-01-01", false⟩, by simp, rfl, rfl⟩
  have h2 := duplicate_add_confirmation.2
    [(1, { state := StateLabel.confirm_duplicate, device_id := some "dev", username := some "u", password := some "p", expiresAt := some "2025-12-12", allowOffline := some true })]
    1 { state := StateLabel.confirm_duplicate, device_id := some "dev", username := some "u", password := some "p", expiresAt := some "2025-12-12", allowOffline := some true }
    ⟨[⟨"old", "u", "p", "2026-01-01", false⟩], true⟩ "dev" "u" "p" "2025-12-12" true
    (by rfl) (by rfl) (by rfl) (by rfl) (by rfl) (by rfl) (by rfl)
  exact ⟨h1.1, h1.2, h2⟩

/-! ### C5: Single-target removal filters by structural value equality -/

/-- C5: confirming a single removal saves the loaded collection with
every record structurally equal to the selected one excluded (all equal
duplicates go together); in particular a one-record collection whose
record has username `a` becomes empty after removing `a` with
confirmation. -/
theorem remove_single_value_equality :
    (∀ t uid cs env r, getState t uid = some cs →
      cs.state = StateLabel.confirm_remove_single → cs.remove_user = some r →
      (handle_confirm_callback uid "confirm_remove" t env).savedWith =
        some (env.loaded.filter (fun u => u != r)) ∧
      ∀ u ∈ env.loaded.filter (fun u => u != r), u ≠ r) ∧
    (∀ t uid cs env r, getState t uid = some cs →
      cs.state = StateLabel.awaiting_remove_username →
      env.loaded = [r] → r.username = "a" →
      (handle_confirm_callback uid "confirm_remove"
        (handle_message uid "a" t env).table env).savedWith =
          some ([] : List Record)) := by
  constructor
  · intro t uid cs env r hget hst hru
    constructor
    · simp only [handle_confirm_callback]
      rw [if_pos trivial]
      simp only [hget, if_pos hst, hru]
      split <;> rfl
    · intro u hu
      have := List.of_mem_filter hu
      simpa using this
  · intro t uid cs env r hget hst hload husr
    have hstrip : pyStrip "a" = "a" := rfl
    have hmatch : List.filter (fun u => u.username == "a") [r] = [r] := by
      simp [List.filter, husr]
    simp only [handle_message, hstrip, hget, hst, hload, hmatch]
    have hne : ¬([r] = ([] : List Record)) := by simp
    simp only [if_neg hne]
    simp only [List.length_singleton, gt_iff_lt, lt_irrefl, if_false,
      List.head?_cons, reduceIte]
    have hmatch2 : List.filter (fun u => u != r) [r] = [] := by
      simp [List.filter]
    simp only [handle_confirm_callback]
    rw [if_pos trivial]
    rw [getState_setState_self]
    simp only [reduceIte, hload, hmatch2]
    split <;> rfl

/-- Witness for C5: removing username `a` from a one-record collection
leaves the empty collection, and the general filter excludes the
record. -/
theorem remove_single_value_equality_witness :
    ((handle_confirm_callback 3 "confirm_remove"
        [(3, { state := StateLabel.confirm_remove_single, remove_user := some ⟨"d", "a", "p", "2025-12-12", false⟩ })]
        ⟨[⟨"d", "a", "p", "2025-12-12", false⟩, ⟨"d2", "b", "q", "2025-12-12", true⟩], true⟩).savedWith =
      some ([⟨"d", "a", "p", "2025-12-12", false⟩, ⟨"d2", "b", "q", "2025-12-12", true⟩].filter
        (fun u => u != (⟨"d", "a", "p", "2025-12-12", false⟩ : Record)))) ∧
    ((handle_confirm_callback 3 "confirm_remove"
        (handle_message 3 "a" [(3, { state := StateLabel.awaiting_remove_username })]
          ⟨[⟨"d", "a", "p", "2025-12-12", false⟩], true⟩).table
        ⟨[⟨"d", "a", "p", "2025-12-12", false⟩], true⟩).savedWith =
      some ([] : List Record)) :=
  ⟨(remove_single_value_equality.1
      [(3, { state := StateLabel.confirm_remove_single, remove_user := some ⟨"d", "a", "p", "2025-12-12", false⟩ })]
      3 { state := StateLabel.confirm_remove_single, remove_user := some ⟨"d", "a", "p", "2025-12-12", false⟩ }
      ⟨[⟨"d", "a", "p", "2025-12-12", false⟩, ⟨"d2", "b", "q", "2025-12-12", true⟩], true⟩
      ⟨"d", "a", "p", "2025-12-12", false⟩ (by rfl) (by rfl) (by rfl)).1,
   remove_single_value_equality.2
      [(3, { state := StateLabel.awaiting_remove_username })]
      3 { state := StateLabel.awaiting_remove_username }
      ⟨[⟨"d", "a", "p", "2025-12-12", false⟩], true⟩
      ⟨"d", "a", "p", "2025-12-12", false⟩ (by rfl) (by rfl) (by rfl) (by rfl)⟩

/-! ### C4: Removal by username, index selection, and remove-all -/

/-- C4: in `awaiting_remove_username`, zero exact-username matches end
the conversation (entry removed); exactly one match selects that record
and enters `confirm_remove_single`; several matches enter
`awaiting_remove_choice` holding the matches, where a 1-based index `k`
within range selects the k-th match, `all` enters `confirm_remove_all`,
and confirming remove-all saves the loaded collection with every record
of that username removed. -/
theorem remove_by_username_flow :
    (∀ t uid cs env text, getState t uid = some cs →
      cs.state = StateLabel.awaiting_remove_username →
      (env.loaded.filter (fun u => u.username == pyStrip text)).length = 0 →
      getState (handle_message uid text t env).table uid = none) ∧
    (∀ t uid cs env text, getState t uid = some cs →
      cs.state = StateLabel.awaiting_remove_username →
      (env.loaded.filter (fun u => u.username == pyStrip text)).length = 1 →
      getState (handle_message uid text t env).table uid =
        some { cs with remove_user := (env.loaded.filter (fun u => u.username == pyStrip text)).head?, state := StateLabel.confirm_remove_single }) ∧
    (∀ t uid cs env text, getState t uid = some cs →
      cs.state = StateLabel.awaiting_remove_username →
      (env.loaded.filter (fun u => u.username == pyStrip text)).length > 1 →
      getState (handle_message uid text t env).table uid =
        some { cs with remove_username := some (pyStrip text), matching_users := some (env.loaded.filter (fun u => u.username == pyStrip text)), state := StateLabel.awaiting_remove_choice }) ∧
    (∀ t uid cs env text s k ms, getState t uid = some cs →
      cs.state = StateLabel.awaiting_remove_choice →
      cs.matching_users = some ms →
      pyLower (pyStrip text) = s → pyIsDigit s = true → natOfDigits s = k →
      1 ≤ k → k ≤ ms.length →
      ∃ h : k - 1 < ms.length,
        getState (handle_message uid text t env).table uid =
          some { cs with remove_user := some (ms.get ⟨k - 1, h⟩), state := StateLabel.confirm_remove_single }) ∧
    (∀ t uid cs env text, getState t uid = some cs →
      cs.state = StateLabel.awaiting_remove_choice →
      pyLower (pyStrip text) = "all" →
      getState (handle_message uid text t env).table uid =
        some { cs with state := StateLabel.confirm_remove_all }) ∧
    (∀ t uid cs env un, getState t uid = some cs →
      cs.state = StateLabel.confirm_remove_all → cs.remove_username = some un →
      (handle_confirm_callback uid "confirm_remove_all" t env).savedWith =
        some (env.loaded.filter (fun u => u.username != un)) ∧
      ∀ u ∈ env.loaded.filter (fun u => u.username != un), u.username ≠ un) := by
  refine ⟨?_, ?_, ?_, ?_, ?_, ?_⟩
  · intro t uid cs env text hget hst h0
    simp only [handle_message, hget, hst]
    by_cases hl : env.loaded = []
    · simp only [hl, reduceIte]
      exact getState_popState_self t uid
    · have hm : env.loaded.filter (fun u => u.username == pyStrip text) = [] :=
        List.length_eq_zero.mp h0
      simp only [if_neg hl, hm, reduceIte]
      exact getState_popState_self t uid
  · intro t uid cs env text hget hst h1
    have hl : env.loaded ≠ [] := by
      intro h
      rw [h] at h1
      simp at h1
    have hm : env.loaded.filter (fun u => u.username == pyStrip text) ≠ [] := by
      intro h
      rw [h] at h1
      simp at h1
    obtain ⟨u, hu⟩ := List.length_eq_one.mp h1
    simp only [handle_message, hget, hst, if_neg hl, if_neg hm, h1, gt_iff_lt,
      lt_irrefl, if_false, hu, List.head?_cons, reduceIte]
    exact getState_setState_self t uid _
  · intro t uid cs env text hget hst hgt
    have hl : env.loaded ≠ [] := by
      intro h
      rw [h] at hgt
      simp at hgt
    have hm : env.loaded.filter (fun u => u.username == pyStrip text) ≠ [] := by
      intro h
      rw [h] at hgt
      simp at hgt
    simp only [handle_message, hget, hst, if_neg hl, if_neg hm, gt_iff_lt,
      if_pos hgt, reduceIte]
    exact getState_setState_self t uid _
  · intro t uid cs env text s k ms hget hst hms hs hdig hval h1 hk
    have hall : s ≠ "all" := by
      intro h
      rw [h] at hdig
      exact absurd hdig (by decide)
    have hlt : k - 1 < ms.length := by omega
    refine ⟨hlt, ?_⟩
    have hidx : ((natOfDigits s : Int) - 1).toNat = k - 1 := by omega
    have hcond : (0 : Int) ≤ (natOfDigits s : Int) - 1 ∧
        (natOfDigits s : Int) - 1 < (ms.length : Int) := by
      constructor <;> omega
    have hgetk : ms[k - 1]? = some (ms.get ⟨k - 1, hlt⟩) := by
      rw [List.getElem?_eq_getElem hlt]
      simp
    simp only [handle_message, hget, hst, hs, if_neg hall, hdig, hms, hidx,
      if_pos hcond, hgetk, reduceIte]
    exact getState_setState_self t uid _
  · intro t uid cs env text hget hst hallv
    simp only [handle_message, hget, hst, hallv, reduceIte]
    cases hru : cs.remove_username with
    | none => exact getState_setState_self t uid _
    | some un => exact getState_setState_self t uid _
  · intro t uid cs env un hget hst hru
    constructor
    · simp only [handle_confirm_callback]
      rw [if_neg (by decide : ¬("confirm_remove_all" = "confirm_remove")),
        if_pos trivial]
      simp only [hget, if_pos hst, hru]
      split <;> rfl
    · intro u hu
      have := List.of_mem_filter hu
      simpa using this

/-- Witness for C4 exercising all six branches at concrete inputs. -/
theorem remove_by_username_flow_witness :
    getState (handle_message 4 "u"
        [(4, { state := StateLabel.awaiting_remove_username })]
        ⟨[⟨"d3", "w", "p3", "2025-12-12", false⟩], true⟩).table 4 = none ∧
    getState (handle_message 4 "u"
        [(4, { state := StateLabel.awaiting_remove_username })]
        ⟨[⟨"d1", "u", "p1", "2025-12-12", true⟩, ⟨"d3", "w", "p3", "2025-12-12", false⟩], true⟩).table 4 =
      some { state := StateLabel.confirm_remove_single, remove_user := some ⟨"d1", "u", "p1", "2025-12-12", true⟩ } ∧
    getState (handle_message 4 "u"
        [(4, { state := StateLabel.awaiting_remove_username })]
        ⟨[⟨"d1", "u", "p1", "2025-12-12", true⟩, ⟨"d2", "u", "p2", "2025-12-12", false⟩], true⟩).table 4 =
      some { state := StateLabel.awaiting_remove_choice, remove_username := some "u", matching_users := some [⟨"d1", "u", "p1", "2025-12-12", true⟩, ⟨"d2", "u", "p2", "2025-12-12", false⟩] } ∧
    getState (handle_message 4 "2"
        [(4, { state := StateLabel.awaiting_remove_choice, remove_username := some "u", matching_users := some [⟨"d1", "u", "p1", "2025-12-12", true⟩, ⟨"d2", "u", "p2", "2025-12-12", false⟩] })]
        ⟨[], true⟩).table 4 =
      some { state := StateLabel.confirm_remove_single, remove_username := some "u", matching_users := some [⟨"d1", "u", "p1", "2025-12-12", true⟩, ⟨"d2", "u", "p2", "2025-12-12", false⟩], remove_user := some ⟨"d2", "u", "p2", "2025-12-12", false⟩ } ∧
    getState (handle_message 4 "ALL"
        [(4, { state := StateLabel.awaiting_remove_choice, remove_username := some "u", matching_users := some [⟨"d1", "u", "p1", "2025-12-12", true⟩, ⟨"d2", "u", "p2", "2025-12-12", false⟩] })]
        ⟨[], true⟩).table 4 =
      some { state := StateLabel.confirm_remove_all, remove_username := some "u", matching_users := some [⟨"d1", "u", "p1", "2025-12-12", true⟩, ⟨"d2", "u", "p2", "2025-12-12", false⟩] } ∧
    (handle_confirm_callback 4 "confirm_remove_all"
        [(4, { state := StateLabel.confirm_remove_all, remove_username := some "u" })]
        ⟨[⟨"d1", "u", "p1", "2025-12-12", true⟩, ⟨"d3", "w", "p3", "2025-12-12", false⟩], true⟩).savedWith =
      some [⟨"d3", "w", "p3", "2025-12-12", false⟩] := by
  refine ⟨?_, ?_, ?_, ?_, ?_, ?_⟩
  · exact remove_by_username_flow.1
      [(4, { state := StateLabel.awaiting_remove_username })] 4
      { state := StateLabel.awaiting_remove_username }
      ⟨[⟨"d3", "w", "p3", "2025-12-12", false⟩], true⟩ "u" (by rfl) (by rfl) (by rfl)
  · exact remove_by_username_flow.2.1
      [(4, { state := StateLabel.awaiting_remove_username })] 4
      { state := StateLabel.awaiting_remove_username }
      ⟨[⟨"d1", "u", "p1", "2025-12-12", true⟩, ⟨"d3", "w", "p3", "2025-12-12", false⟩], true⟩
      "u" (by rfl) (by rfl) (by rfl)
  · exact remove_by_username_flow.2.2.1
      [(4, { state := StateLabel.awaiting_remove_username })] 4
      { state := StateLabel.awaiting_remove_username }
      ⟨[⟨"d1", "u", "p1", "2025-12-12", true⟩, ⟨"d2", "u", "p2", "2025-12-12", false⟩], true⟩
      "u" (by rfl) (by rfl) (by decide)
  · exact (remove_by_username_flow.2.2.2.1
      [(4, { state := StateLabel.awaiting_remove_choice, remove_username := some "u", matching_users := some [⟨"d1", "u", "p1", "2025-12-12", true⟩, ⟨"d2", "u", "p2", "2025-12-12", false⟩] })] 4
      { state := StateLabel.awaiting_remove_choice, remove_username := some "u", matching_users := some [⟨"d1", "u", "p1", "2025-12-12", true⟩, ⟨"d2", "u", "p2", "2025-12-12", false⟩] }
      ⟨[], true⟩ "2" "2" 2
      [⟨"d1", "u", "p1", "2025-12-12", true⟩, ⟨"d2", "u", "p2", "2025-12-12", false⟩]
      (by rfl) (by rfl) (by rfl) (by rfl) (by rfl) (by rfl) (by decide) (by decide)).elim
      (fun h heq => heq)
  · exact remove_by_username_flow.2.2.2.2.1
      [(4, { state := StateLabel.awaiting_remove_choice, remove_username := some "u", matching_users := some [⟨"d1", "u", "p1", "2025-12-12", true⟩, ⟨"d2", "u", "p2", "2025-12-12", false⟩] })] 4
      { state := StateLabel.awaiting_remove_choice, remove_username := some "u", matching_users := some [⟨"d1", "u", "p1", "2025-12-12", true⟩, ⟨"d2", "u", "p2", "2025-12-12", false⟩] }
      ⟨[], true⟩ "ALL" (by rfl) (by rfl) (by rfl)
  · exact (remove_by_username_flow.2.2.2.2.2
      [(4, { state := StateLabel.confirm_remove_all, remove_username := some "u" })] 4
      { state := StateLabel.confirm_remove_all, remove_username := some "u" }
      ⟨[⟨"d1", "u", "p1", "2025-12-12", true⟩, ⟨"d3", "w", "p3", "2025-12-12", false⟩], true⟩
      "u" (by rfl) (by rfl) (by rfl)).1

/-! ### C9: Conversation-state lifecycle -/

/-- C9: the cancel button removes the operator's state entry; every
completed operation - a commit with the save succeeding or failing, a
caught internal error during the offline-commit, a removal confirmation
with the save succeeding or failing, an add-anyway commit, and a
removal attempt with no matching username - removes the entry; and with
no entry present, free text yields the use-the-menu prompt and leaves
the table and the stored collection untouched (no save attempted). -/
theorem conversation_lifecycle :
    (∀ t uid env, getState (button_handler uid "cancel" t env).table uid = none) ∧
    (∀ t uid cs env d un pw did exp, getState t uid = some cs →
      cs.state = StateLabel.awaiting_offline →
      (d = "offline_yes" ∨ d = "offline_no") →
      cs.username = some un → cs.password = some pw →
      env.loaded.any (fun u => u.username == un && u.password == pw) = false →
      cs.device_id = some did → cs.expiresAt = some exp →
      getState (handle_offline_callback uid d t env).table uid = none) ∧
    (∀ t uid cs env d, getState t uid = some cs →
      cs.state = StateLabel.awaiting_offline →
      (d = "offline_yes" ∨ d = "offline_no") →
      cs.username = none →
      getState (handle_offline_callback uid d t env).table uid = none) ∧
    (∀ t uid cs env r, getState t uid = some cs →
      cs.state = StateLabel.confirm_remove_single → cs.remove_user = some r →
      getState (handle_confirm_callback uid "confirm_remove" t env).table uid = none) ∧
    (∀ t uid cs env un, getState t uid = some cs →
      cs.state = StateLabel.confirm_remove_all → cs.remove_username = some un →
      getState (handle_confirm_callback uid "confirm_remove_all" t env).table uid = none) ∧
    (∀ t uid cs env did un pw exp off, getState t uid = some cs →
      cs.state = StateLabel.confirm_duplicate →
      cs.device_id = some did → cs.username = some un → cs.password = some pw →
      cs.expiresAt = some exp → cs.allowOffline = some off →
      getState (handle_confirm_callback uid "add_anyway" t env).table uid = none) ∧
    (∀ t uid cs env text, getState t uid = some cs →
      cs.state = StateLabel.awaiting_remove_username →
      (env.loaded.filter (fun u => u.username == pyStrip text)).length = 0 →
      getState (handle_message uid text t env).table uid = none) ∧
    (∀ t uid env text, getState t uid = none →
      handle_message uid text t env = ⟨t, Reply.useMenu, none, false⟩) := by
  refine ⟨?_, ?_, ?_, ?_, ?_, ?_, ?_, ?_⟩
  · intro t uid env
    simp only [button_handler, reduceIte]
    exact getState_popState_self t uid
  · intro t uid cs env d un pw did exp hget hst hd hun hpw hnodup hdid hexp
    rcases hd with rfl | rfl
    · simp only [handle_offline_callback, hget, if_pos hst]
      rw [if_pos trivial]
      simp only [hun, hpw, hnodup, hdid, hexp, Bool.false_eq_true, if_false]
      split <;> exact getState_popState_self t uid
    · simp only [handle_offline_callback, hget, if_pos hst]
      rw [if_neg (by decide : ¬("offline_no" = "offline_yes")), if_pos trivial]
      simp only [hun, hpw, hnodup, hdid, hexp, Bool.false_eq_true, if_false]
      split <;> exact getState_popState_self t uid
  · intro t uid cs env d hget hst hd hun
    rcases hd with rfl | rfl
    · simp only [handle_offline_callback, hget, if_pos hst]
      rw [if_pos trivial]
      simp only [hun]
      cases hpw : cs.password <;> exact getState_popState_self t uid
    · simp only [handle_offline_callback, hget, if_pos hst]
      rw [if_neg (by decide : ¬("offline_no" = "offline_yes")), if_pos trivial]
      simp only [hun]
      cases hpw : cs.password <;> exact getState_popState_self t uid
  · intro t uid cs env r hget hst hru
    simp only [handle_confirm_callback]
    rw [if_pos trivial]
    simp only [hget, if_pos hst, hru]
    split <;> exact getState_popState_self t uid
  · intro t uid cs env un hget hst hru
    simp only [handle_confirm_callback]
    rw [if_neg (by decide : ¬("confirm_remove_all" = "confirm_remove")),
      if_pos trivial]
    simp only [hget, if_pos hst, hru]
    split <;> exact getState_popState_self t uid
  · intro t uid cs env did un pw exp off hget hst hdid hun hpw hexp hoff
    simp only [handle_confirm_callback]
    rw [if_neg (by decide : ¬("add_anyway" = "confirm_remove")),
      if_neg (by decide : ¬("add_anyway" = "confirm_remove_all")),
      if_pos trivial]
    simp only [hget, if_pos hst, hdid, hun, hpw, hexp, hoff]
    split <;> exact getState_popState_self t uid
  · intro t uid cs env text hget hst h0
    simp only [handle_message, hget, hst]
    by_cases hl : env.loaded = []
    · simp only [hl, reduceIte]
      exact getState_popState_self t uid
    · have hm : env.loaded.filter (fun u => u.username == pyStrip text) = [] :=
        List.length_eq_zero.mp h0
      simp only [if_neg hl, hm, reduceIte]
      exact getState_popState_self t uid
  · intro t uid env text hget
    simp only [handle_message, hget]

/-- Witness for C9 at concrete inputs: cancel clears the entry, a
successful commit clears it, and without an entry free text returns the
menu prompt leaving everything unchanged. -/
theorem conversation_lifecycle_witness :
    getState (button_handler 5 "cancel"
      [(5, { state := StateLabel.awaiting_password })] ⟨[], true⟩).table 5 = none ∧
    getState (handle_offline_callback 5 "offline_no"
      [(5, { state := StateLabel.awaiting_offline, device_id := some "d", username := some "u", password := some "p", expiresAt := some "2025-12-12" })]
      ⟨[], false⟩).table 5 = none ∧
    getState (handle_offline_callback 5 "offline_yes"
      [(5, { state := StateLabel.awaiting_offline })] ⟨[], true⟩).table 5 = none ∧
    getState (handle_confirm_callback 5 "confirm_remove"
      [(5, { state := StateLabel.confirm_remove_single, remove_user := some ⟨"d", "u", "p", "2025-12-12", true⟩ })]
      ⟨[], false⟩).table 5 = none ∧
    getState (handle_confirm_callback 5 "confirm_remove_all"
      [(5, { state := StateLabel.confirm_remove_all, remove_username := some "u" })]
      ⟨[], true⟩).table 5 = none ∧
    getState (handle_confirm_callback 5 "add_anyway"
      [(5, { state := StateLabel.confirm_duplicate, device_id := some "d", username := some "u", password := some "p", expiresAt := some "2025-12-12", allowOffline := some true })]
      ⟨[], true⟩).table 5 = none ∧
    getState (handle_message 5 "nobody"
      [(5, { state := StateLabel.awaiting_remove_username })] ⟨[], true⟩).table 5 = none ∧
    handle_message 5 "hello" [] ⟨[], true⟩ = ⟨[], Reply.useMenu, none, false⟩ := by
  refine ⟨?_, ?_, ?_, ?_, ?_, ?_, ?_, ?_⟩
  · exact conversation_lifecycle.1 [(5, { state := StateLabel.awaiting_password })] 5 ⟨[], true⟩
  · exact conversation_lifecycle.2.1
      [(5, { state := StateLabel.awaiting_offline, device_id := some "d", username := some "u", password := some "p", expiresAt := some "2025-12-12" })] 5
      { state := StateLabel.awaiting_offline, device_id := some "d", username := some "u", password := some "p", expiresAt := some "2025-12-12" }
      ⟨[], false⟩ "offline_no" "u" "p" "d" "2025-12-12"
      (by rfl) (by rfl) (Or.inr rfl) (by rfl) (by rfl) (by rfl) (by rfl) (by rfl)
  · exact conversation_lifecycle.2.2.1
      [(5, { state := StateLabel.awaiting_offline })] 5
      { state := StateLabel.awaiting_offline } ⟨[], true⟩ "offline_yes"
      (by rfl) (by rfl) (Or.inl rfl) (by rfl)
  · exact conversation_lifecycle.2.2.2.1
      [(5, { state := StateLabel.confirm_remove_single, remove_user := some ⟨"d", "u", "p", "2025-12-12", true⟩ })] 5
      { state := StateLabel.confirm_remove_single, remove_user := some ⟨"d", "u", "p", "2025-12-12", true⟩ }
      ⟨[], false⟩ ⟨"d", "u", "p", "2025-12-12", true⟩ (by rfl) (by rfl) (by rfl)
  · exact conversation_lifecycle.2.2.2.2.1
      [(5, { state := StateLabel.confirm_remove_all, remove_username := some "u" })] 5
      { state := StateLabel.confirm_remove_all, remove_username := some "u" }
      ⟨[], true⟩ "u" (by rfl) (by rfl) (by rfl)
  · exact conversation_lifecycle.2.2.2.2.2.1
      [(5, { state := StateLabel.confirm_duplicate, device_id := some "d", username := some "u", password := some "p", expiresAt := some "2025-12-12", allowOffline := some true })] 5
      { state := StateLabel.confirm_duplicate, device_id := some "d", username := some "u", password := some "p", expiresAt := some "2025-12-12", allowOffline := some true }
      ⟨[], true⟩ "d" "u" "p" "2025-12-12" true
      (by rfl) (by rfl) (by rfl) (by rfl) (by rfl) (by rfl) (by rfl)
  · exact conversation_lifecycle.2.2.2.2.2.2.1
      [(5, { state := StateLabel.awaiting_remove_username })] 5
      { state := StateLabel.awaiting_remove_username } ⟨[], true⟩ "nobody"
      (by rfl) (by rfl) (by rfl)
  · exact conversation_lifecycle.2.2.2.2.2.2.2 [] 5 ⟨[], true⟩ "hello" (by rfl)

/-! ### C10: Stale confirmation buttons are no-ops -/

/-- C10: a confirmation button event (`offline_yes`, `offline_no`,
`confirm_remove`, `confirm_remove_all`, `add_anyway`) arriving for an
operator with no state entry, or one whose state label differs from the
event's expected state, is a no-op: the table is returned unchanged, no
collection is saved, and no load is performed. -/
theorem stale_confirmation_noop :
    ∀ uid t env d exp,
      (d, exp) ∈ [("offline_yes", StateLabel.awaiting_offline),
        ("offline_no", StateLabel.awaiting_offline),
        ("confirm_remove", StateLabel.confirm_remove_single),
        ("confirm_remove_all", StateLabel.confirm_remove_all),
        ("add_anyway", StateLabel.confirm_duplicate)] →
      (∀ cs, getState t uid = some cs → cs.state ≠ exp) →
      dispatch uid (Event.callback d) t env = ⟨t, Reply.silent, none, false⟩ := by
  intro uid t env d exp hmem hmis
  have hforall : ∀ target : StateLabel, target = exp →
      ∀ cs, getState t uid = some cs → ¬(cs.state = target) := by
    intro target ht cs hg
    rw [ht]
    exact hmis cs hg
  fin_cases hmem
  · simp only [dispatch]
    rw [if_neg (by decide), if_pos (by decide)]
    simp only [handle_offline_callback]
    cases hg : getState t uid with
    | none => rfl
    | some cs =>
      have hne := hforall _ rfl cs hg
      simp [hne]
  · simp only [dispatch]
    rw [if_neg (by decide), if_pos (by decide)]
    simp only [handle_offline_callback]
    cases hg : getState t uid with
    | none => rfl
    | some cs =>
      have hne := hforall _ rfl cs hg
      simp [hne]
  · simp only [dispatch]
    rw [if_neg (by decide), if_neg (by decide), if_pos (by decide)]
    simp only [handle_confirm_callback]
    rw [if_pos trivial]
    cases hg : getState t uid with
    | none => rfl
    | some cs =>
      have hne := hforall _ rfl cs hg
      simp [hne]
  · simp only [dispatch]
    rw [if_neg (by decide), if_neg (by decide), if_pos (by decide)]
    simp only [handle_confirm_callback]
    rw [if_neg (by decide : ¬("confirm_remove_all" = "confirm_remove")),
      if_pos trivial]
    cases hg : getState t uid with
    | none => rfl
    | some cs =>
      have hne := hforall _ rfl cs hg
      simp [hne]
  · simp only [dispatch]
    rw [if_neg (by decide), if_neg (by decide), if_pos (by decide)]
    simp only [handle_confirm_callback]
    rw [if_neg (by decide : ¬("add_anyway" = "confirm_remove")),
      if_neg (by decide : ¬("add_anyway" = "confirm_remove_all")),
      if_pos trivial]
    cases hg : getState t uid with
    | none => rfl
    | some cs =>
      have hne := hforall _ rfl cs hg
      simp [hne]

/-- Witness for C10: a confirmation with no state entry, and one with a
mismatched state label, both leave everything unchanged. -/
theorem stale_confirmation_noop_witness :
    dispatch 6 (Event.callback "confirm_remove") [] ⟨[], true⟩ =
      ⟨[], Reply.silent, none, false⟩ ∧
    dispatch 6 (Event.callback "add_anyway")
        [(6, { state := StateLabel.awaiting_device_id })] ⟨[], true⟩ =
      ⟨[(6, { state := StateLabel.awaiting_device_id })], Reply.silent, none, false⟩ :=
  ⟨stale_confirmation_noop 6 [] ⟨[], true⟩ "confirm_remove"
      StateLabel.confirm_remove_single (by decide)
      (fun cs hg => by cases hg),
   stale_confirmation_noop 6 [(6, { state := StateLabel.awaiting_device_id })]
      ⟨[], true⟩ "add_anyway" StateLabel.confirm_duplicate (by decide)
      (fun cs hg => by
        have : cs = { state := StateLabel.awaiting_device_id } := by
          cases hg
          rfl
        rw [this]
        decide)⟩

/-! ### C8 preparation: the serializer output parses back -/

theorem hexVal_hexDigit : ∀ n, n < 16 → hexVal (hexDigit n) = some n := by decide

theorem encChars_length_le (l : List Char) : l.length ≤ (encChars l).length := by
  induction l with
  | nil => simp [encChars]
  | cons c l ih =>
    have hc : 1 ≤ (encChar c).length := by
      unfold encChar
      split_ifs <;> simp
    simp only [encChars, List.length_cons, List.length_append]
    omega

theorem parseStrBodyAux_u00 (F : Nat) (acc : List Char) (x y : Char) (a b : Nat)
    (hx : hexVal x = some a) (hy : hexVal y = some b)
    (hn : a * 16 + b < 0xD800) (tail : List Char) :
    parseStrBodyAux (Nat.succ F) acc ('\\' :: 'u' :: '0' :: '0' :: x :: y :: tail) =
    parseStrBodyAux F (Char.ofNat (a * 16 + b) :: acc) tail := by
  have hz : hexVal '0' = some 0 := rfl
  have harith : ((0 * 16 + 0) * 16 + a) * 16 + b = a * 16 + b := by ring
  have hne1 : ¬('\\' = '"') := by decide
  have hsur : ¬(0xD800 ≤ a * 16 + b ∧ a * 16 + b ≤ 0xDBFF) := by omega
  rcases tail with _ | ⟨b1, _ | ⟨b2, _ | ⟨g1, _ | ⟨g2, _ | ⟨g3, _ | ⟨g4, rest4⟩⟩⟩⟩⟩⟩ <;>
    simp only [parseStrBodyAux, hz, hx, hy, harith, hne1, hsur, if_false, if_true,
      eq_self_iff_true, false_and, and_false, reduceIte, ite_false, ite_true]

theorem parseStrBodyAux_plain (F : Nat) (acc : List Char) (c : Char)
    (tail : List Char) (h1 : ¬c = '"') (h2 : ¬c = '\\') (h3 : ¬c.toNat < 32) :
    parseStrBodyAux (Nat.succ F) acc (c :: tail) =
    parseStrBodyAux F (c :: acc) tail := by
  simp only [parseStrBodyAux, if_neg h1, if_neg h2, if_neg h3]

theorem parseStrBodyAux_enc :
    ∀ (l : List Char) (f : Nat) (acc rest : List Char),
      parseStrBodyAux (l.length + (f + 1)) acc (encChars l ++ ('"' :: rest)) =
      some (⟨acc.reverse ++ l⟩, rest) := by
  intro l
  induction l with
  | nil =>
    intro f acc rest
    show parseStrBodyAux (Nat.succ f) acc ('"' :: rest) = _
    simp [parseStrBodyAux]
  | cons c l ih =>
    intro f acc rest
    have hfuel : (c :: l).length + (f + 1) = Nat.succ (l.length + (f + 1)) := by
      rw [List.length_cons]
      omega
    rw [hfuel, show encChars (c :: l) = encChar c ++ encChars l from rfl]
    by_cases h1 : c = '"'
    · subst h1
      rw [show encChar '"' = ['\\', '"'] from rfl]
      simp only [List.cons_append, List.nil_append]
      rw [show parseStrBodyAux (Nat.succ (l.length + (f + 1))) acc
          ('\\' :: ('"' :: (encChars l ++ ('"' :: rest)))) =
          parseStrBodyAux (l.length + (f + 1)) ('"' :: acc)
            (encChars l ++ ('"' :: rest)) from rfl, ih f ('"' :: acc) rest]
      simp
    · by_cases h2 : c = '\\'
      · subst h2
        rw [show encChar '\\' = ['\\', '\\'] from rfl]
        simp only [List.cons_append, List.nil_append]
        rw [show parseStrBodyAux (Nat.succ (l.length + (f + 1))) acc
            ('\\' :: ('\\' :: (encChars l ++ ('"' :: rest)))) =
            parseStrBodyAux (l.length + (f + 1)) ('\\' :: acc)
              (encChars l ++ ('"' :: rest)) from rfl, ih f ('\\' :: acc) rest]
        simp
      · by_cases h3 : c = '\n'
        · subst h3
          rw [show encChar '\n' = ['\\', 'n'] from rfl]
          simp only [List.cons_append, List.nil_append]
          rw [show parseStrBodyAux (Nat.succ (l.length + (f + 1))) acc
              ('\\' :: ('n' :: (encChars l ++ ('"' :: rest)))) =
              parseStrBodyAux (l.length + (f + 1)) ('\n' :: acc)
                (encChars l ++ ('"' :: rest)) from rfl, ih f ('\n' :: acc) rest]
          simp
        · by_cases h4 : c = '\x0d'
          · subst h4
            rw [show encChar '\x0d' = ['\\', 'r'] from rfl]
            simp only [List.cons_append, List.nil_append]
            rw [show parseStrBodyAux (Nat.succ (l.length + (f + 1))) acc
                ('\\' :: ('r' :: (encChars l ++ ('"' :: rest)))) =
                parseStrBodyAux (l.length + (f + 1)) ('\x0d' :: acc)
                  (encChars l ++ ('"' :: rest)) from rfl, ih f ('\x0d' :: acc) rest]
            simp
          · by_cases h5 : c = '\t'
            · subst h5
              rw [show encChar '\t' = ['\\', 't'] from rfl]
              simp only [List.cons_append, List.nil_append]
              rw [show parseStrBodyAux (Nat.succ (l.length + (f + 1))) acc
                  ('\\' :: ('t' :: (encChars l ++ ('"' :: rest)))) =
                  parseStrBodyAux (l.length + (f + 1)) ('\t' :: acc)
                    (encChars l ++ ('"' :: rest)) from rfl, ih f ('\t' :: acc) rest]
              simp
            · by_cases h6 : c.toNat = 8
              · have hce : encChar c = ['\\', 'b'] := by
                  unfold encChar
                  rw [if_neg h1, if_neg h2, if_neg h3, if_neg h4, if_neg h5, if_pos h6]
                have hcc : c = Char.ofNat 8 := by
                  rw [← h6, Char.ofNat_toNat]
                rw [hce]
                simp only [List.cons_append, List.nil_append]
                rw [show parseStrBodyAux (Nat.succ (l.length + (f + 1))) acc
                    ('\\' :: ('b' :: (encChars l ++ ('"' :: rest)))) =
                    parseStrBodyAux (l.length + (f + 1)) (Char.ofNat 8 :: acc)
                      (encChars l ++ ('"' :: rest)) from rfl, ← hcc,
                  ih f (c :: acc) rest]
                simp
              · by_cases h7 : c.toNat = 12
                · have hce : encChar c = ['\\', 'f'] := by
                    unfold encChar
                    rw [if_neg h1, if_neg h2, if_neg h3, if_neg h4, if_neg h5,
                      if_neg h6, if_pos h7]
                  have hcc : c = Char.ofNat 12 := by
                    rw [← h7, Char.ofNat_toNat]
                  rw [hce]
                  simp only [List.cons_append, List.nil_append]
                  rw [show parseStrBodyAux (Nat.succ (l.length + (f + 1))) acc
                      ('\\' :: ('f' :: (encChars l ++ ('"' :: rest)))) =
                      parseStrBodyAux (l.length + (f + 1)) (Char.ofNat 12 :: acc)
                        (encChars l ++ ('"' :: rest)) from rfl, ← hcc,
                    ih f (c :: acc) rest]
                  simp
                · by_cases h8 : c.toNat < 32
                  · have hce : encChar c = ['\\', 'u', '0', '0',
                        hexDigit (c.toNat / 16), hexDigit (c.toNat % 16)] := by
                      unfold encChar
                      rw [if_neg h1, if_neg h2, if_neg h3, if_neg h4, if_neg h5,
                        if_neg h6, if_neg h7, if_pos h8]
                    rw [hce]
                    simp only [List.cons_append, List.nil_append]
                    have harith : c.toNat / 16 * 16 + c.toNat % 16 = c.toNat := by
                      omega
                    rw [parseStrBodyAux_u00 (l.length + (f + 1)) acc
                        (hexDigit (c.toNat / 16)) (hexDigit (c.toNat % 16))
                        (c.toNat / 16) (c.toNat % 16)
                        (hexVal_hexDigit _ (by omega)) (hexVal_hexDigit _ (by omega))
                        (by omega), harith, Char.ofNat_toNat, ih f (c :: acc) rest]
                    simp
                  · rw [show encChar c = [c] from by
                        unfold encChar
                        rw [if_neg h1, if_neg h2, if_neg h3, if_neg h4, if_neg h5,
                          if_neg h6, if_neg h7, if_neg h8]]
                    simp only [List.cons_append, List.nil_append]
                    rw [parseStrBodyAux_plain (l.length + (f + 1)) acc c
                        (encChars l ++ ('"' :: rest)) h1 h2 h8,
                      ih f (c :: acc) rest]
                    simp

theorem parseStrBody_enc (s : String) (rest : List Char) :
    parseStrBody [] (encChars s.data ++ ('"' :: rest)) = some (s, rest) := by
  unfold parseStrBody
  have hlen : s.data.length ≤ (encChars s.data ++ ('"' :: rest)).length := by
    have := encChars_length_le s.data
    simp only [List.length_append, List.length_cons]
    omega
  have hfuel : (encChars s.data ++ ('"' :: rest)).length + 1 =
      s.data.length +
        (((encChars s.data ++ ('"' :: rest)).length - s.data.length) + 1) := by
    omega
  rw [hfuel, parseStrBodyAux_enc s.data _ [] rest]
  cases s with
  | mk data => simp

theorem parseValue_str (f : Nat) (s : String) (rest : List Char) :
    parseValue (Nat.succ f) (encodeString s ++ rest) = some (Json.str s, rest) := by
  rw [show encodeString s ++ rest = '"' :: (encChars s.data ++ ('"' :: rest)) from by
    simp [encodeString]]
  have hk := parseStrBody_enc s rest
  simp only [parseValue, hk, eq_self_iff_true, ite_true]

theorem parseValue_true (f : Nat) (rest : List Char) :
    parseValue (Nat.succ f) ('t' :: 'r' :: 'u' :: 'e' :: rest) =
      some (Json.bool true, rest) := by
  simp [parseValue, pfxOf, List.isPrefixOf]

theorem parseValue_false (f : Nat) (rest : List Char) :
    parseValue (Nat.succ f) ('f' :: 'a' :: 'l' :: 's' :: 'e' :: rest) =
      some (Json.bool false, rest) := by
  simp [parseValue, pfxOf, List.isPrefixOf]

theorem skipWs_ws (c : Char) (cs : List Char) (h : jsonWs c = true) :
    skipWs (c :: cs) = skipWs cs := by
  simp [skipWs, h]

theorem skipWs_nonws (c : Char) (cs : List Char) (h : jsonWs c = false) :
    skipWs (c :: cs) = c :: cs := by
  simp [skipWs, h]

theorem parseMembers_step (f : Nat) (acc : List (String × Json)) (k : String)
    (v : Json) (vEnc tail : List Char)
    (hv : ∀ g rest, parseValue (Nat.succ g) (vEnc ++ rest) = some (v, rest))
    (hws : ∀ x, skipWs (vEnc ++ x) = vEnc ++ x) :
    parseMembers (Nat.succ (Nat.succ f)) acc
      (encodeString k ++ (':' :: (' ' :: (vEnc ++
        (',' :: ('\n' :: (indentChars 2 ++ tail))))))) =
    parseMembers (Nat.succ f) (insertPair acc k v) (skipWs tail) := by
  have hk : parseStrBody [] (encChars k.data ++ ('"' :: (':' :: (' ' :: (vEnc ++
      (',' :: ('\n' :: (indentChars 2 ++ tail)))))))) =
      some (k, ':' :: (' ' :: (vEnc ++ (',' :: ('\n' ::
        (indentChars 2 ++ tail)))))) := parseStrBody_enc k _
  have s1 : skipWs (':' :: (' ' :: (vEnc ++ (',' :: ('\n' ::
      (indentChars 2 ++ tail)))))) = ':' :: (' ' :: (vEnc ++ (',' :: ('\n' ::
      (indentChars 2 ++ tail))))) := skipWs_nonws _ _ rfl
  have s2 : skipWs (' ' :: (vEnc ++ (',' :: ('\n' :: (indentChars 2 ++ tail))))) =
      vEnc ++ (',' :: ('\n' :: (indentChars 2 ++ tail))) := by
    rw [skipWs_ws ' ' _ rfl, hws]
  have hv1 : parseValue (Nat.succ f) (vEnc ++ (',' :: ('\n' ::
      (indentChars 2 ++ tail)))) =
      some (v, ',' :: ('\n' :: (indentChars 2 ++ tail))) := hv f _
  have s3 : skipWs (',' :: ('\n' :: (indentChars 2 ++ tail))) =
      ',' :: ('\n' :: (indentChars 2 ++ tail)) := skipWs_nonws _ _ rfl
  have s4 : skipWs ('\n' :: (indentChars 2 ++ tail)) = skipWs tail := rfl
  rw [show encodeString k ++ (':' :: (' ' :: (vEnc ++
      (',' :: ('\n' :: (indentChars 2 ++ tail)))))) =
      '"' :: (encChars k.data ++ ('"' :: (':' :: (' ' :: (vEnc ++
        (',' :: ('\n' :: (indentChars 2 ++ tail)))))))) from by
    simp [encodeString]]
  simp only [parseMembers, hk, s1, s2, hv1, s3, s4, eq_self_iff_true, ite_true]

theorem parseMembers_last (f : Nat) (acc : List (String × Json)) (k : String)
    (v : Json) (vEnc rest : List Char)
    (hv : ∀ g rest, parseValue (Nat.succ g) (vEnc ++ rest) = some (v, rest))
    (hws : ∀ x, skipWs (vEnc ++ x) = vEnc ++ x) :
    parseMembers (Nat.succ (Nat.succ f)) acc
      (encodeString k ++ (':' :: (' ' :: (vEnc ++
        ('\n' :: (indentChars 1 ++ ('}' :: rest))))))) =
    some (Json.obj (insertPair acc k v), rest) := by
  have hk : parseStrBody [] (encChars k.data ++ ('"' :: (':' :: (' ' :: (vEnc ++
      ('\n' :: (indentChars 1 ++ ('}' :: rest)))))))) =
      some (k, ':' :: (' ' :: (vEnc ++ ('\n' :: (indentChars 1 ++
        ('}' :: rest)))))) := parseStrBody_enc k _
  have s1 : skipWs (':' :: (' ' :: (vEnc ++ ('\n' :: (indentChars 1 ++
      ('}' :: rest)))))) = ':' :: (' ' :: (vEnc ++ ('\n' :: (indentChars 1 ++
      ('}' :: rest))))) := skipWs_nonws _ _ rfl
  have s2 : skipWs (' ' :: (vEnc ++ ('\n' :: (indentChars 1 ++ ('}' :: rest))))) =
      vEnc ++ ('\n' :: (indentChars 1 ++ ('}' :: rest))) := by
    rw [skipWs_ws ' ' _ rfl, hws]
  have hv1 : parseValue (Nat.succ f) (vEnc ++ ('\n' :: (indentChars 1 ++
      ('}' :: rest)))) = some (v, '\n' :: (indentChars 1 ++ ('}' :: rest))) :=
    hv f _
  have s3 : skipWs ('\n' :: (indentChars 1 ++ ('}' :: rest))) = '}' :: rest := rfl
  have hne : ¬('}' = ',') := by decide
  rw [show encodeString k ++ (':' :: (' ' :: (vEnc ++
      ('\n' :: (indentChars 1 ++ ('}' :: rest)))))) =
      '"' :: (encChars k.data ++ ('"' :: (':' :: (' ' :: (vEnc ++
        ('\n' :: (indentChars 1 ++ ('}' :: rest)))))))) from by
    simp [encodeString]]
  simp only [parseMembers, hk, s1, s2, hv1, s3, hne, eq_self_iff_true, ite_true,
    if_false, ite_false]

theorem skipWs_encodeString (k : String) (x : List Char) :
    skipWs (encodeString k ++ x) = encodeString k ++ x := rfl

theorem parseValue_obj_enter (f : Nat) (k : String) (Y : List Char) :
    parseValue (Nat.succ f)
      ('{' :: ('\n' :: (indentChars 2 ++ (encodeString k ++ Y)))) =
    parseMembers f [] (encodeString k ++ Y) := by
  have h1 : skipWs ('\n' :: (indentChars 2 ++ (encodeString k ++ Y))) =
      '"' :: ((encChars k.data ++ ['"']) ++ Y) := rfl
  have hne1 : ¬('{' = '"') := by decide
  have hne2 : ¬('"' = '}') := by decide
  simp only [parseValue, h1, hne1, hne2, eq_self_iff_true, ite_true, if_false,
    ite_false]
  rw [show '"' :: ((encChars k.data ++ ['"']) ++ Y) = encodeString k ++ Y from by
    simp [encodeString]]

theorem parseMembers_last_true (f : Nat) (acc : List (String × Json))
    (k : String) (rest : List Char) :
    parseMembers (Nat.succ (Nat.succ f)) acc
      (encodeString k ++ (':' :: (' ' :: ('t' :: 'r' :: 'u' :: 'e' ::
        ('\n' :: (indentChars 1 ++ ('}' :: rest))))))) =
    some (Json.obj (insertPair acc k (Json.bool true)), rest) := by
  rw [show ('t' :: 'r' :: 'u' :: 'e' ::
      ('\n' :: (indentChars 1 ++ ('}' :: rest)))) =
      ['t', 'r', 'u', 'e'] ++ ('\n' :: (indentChars 1 ++ ('}' :: rest))) from rfl]
  exact parseMembers_last f acc k (Json.bool true) ['t', 'r', 'u', 'e'] rest
    (fun g r => parseValue_true g r) (fun x => rfl)

theorem parseMembers_last_false (f : Nat) (acc : List (String × Json))
    (k : String) (rest : List Char) :
    parseMembers (Nat.succ (Nat.succ f)) acc
      (encodeString k ++ (':' :: (' ' :: ('f' :: 'a' :: 'l' :: 's' :: 'e' ::
        ('\n' :: (indentChars 1 ++ ('}' :: rest))))))) =
    some (Json.obj (insertPair acc k (Json.bool false)), rest) := by
  rw [show ('f' :: 'a' :: 'l' :: 's' :: 'e' ::
      ('\n' :: (indentChars 1 ++ ('}' :: rest)))) =
      ['f', 'a', 'l', 's', 'e'] ++ ('\n' :: (indentChars 1 ++ ('}' :: rest))) from rfl]
  exact parseMembers_last f acc k (Json.bool false) ['f', 'a', 'l', 's', 'e'] rest
    (fun g r => parseValue_false g r) (fun x => rfl)

theorem parseValue_record (f : Nat) (r : Record) (rest : List Char) :
    parseValue (f + 7) (dumpVal (Record.toJson r) 1 ++ rest) =
      some (Record.toJson r, rest) := by
  obtain ⟨a, u, p, e, b⟩ := r
  cases b
  · simp only [Record.toJson, dumpVal, dumpObjRest, List.cons_append,
      List.append_assoc, List.nil_append, List.singleton_append]
    rw [show f + 7 = Nat.succ (f + 6) from rfl, parseValue_obj_enter]
    rw [show f + 6 = Nat.succ (Nat.succ (f + 4)) from rfl,
      parseMembers_step (f + 4) [] "id" (Json.str a) (encodeString a) _
        (fun g r2 => parseValue_str g a r2) (fun x => rfl),
      skipWs_encodeString]
    rw [show f + 4 = Nat.succ (f + 3) from rfl,
      parseMembers_step (f + 3) _ "username" (Json.str u) (encodeString u) _
        (fun g r2 => parseValue_str g u r2) (fun x => rfl),
      skipWs_encodeString]
    rw [show f + 3 = Nat.succ (f + 2) from rfl,
      parseMembers_step (f + 2) _ "password" (Json.str p) (encodeString p) _
        (fun g r2 => parseValue_str g p r2) (fun x => rfl),
      skipWs_encodeString]
    rw [show f + 2 = Nat.succ (f + 1) from rfl,
      parseMembers_step (f + 1) _ "expiresAt" (Json.str e) (encodeString e) _
        (fun g r2 => parseValue_str g e r2) (fun x => rfl),
      skipWs_encodeString]
    rw [show f + 1 = Nat.succ f from rfl, parseMembers_last_false]
    rfl
  · simp only [Record.toJson, dumpVal, dumpObjRest, List.cons_append,
      List.append_assoc, List.nil_append, List.singleton_append]
    rw [show f + 7 = Nat.succ (f + 6) from rfl, parseValue_obj_enter]
    rw [show f + 6 = Nat.succ (Nat.succ (f + 4)) from rfl,
      parseMembers_step (f + 4) [] "id" (Json.str a) (encodeString a) _
        (fun g r2 => parseValue_str g a r2) (fun x => rfl),
      skipWs_encodeString]
    rw [show f + 4 = Nat.succ (f + 3) from rfl,
      parseMembers_step (f + 3) _ "username" (Json.str u) (encodeString u) _
        (fun g r2 => parseValue_str g u r2) (fun x => rfl),
      skipWs_encodeString]
    rw [show f + 3 = Nat.succ (f + 2) from rfl,
      parseMembers_step (f + 2) _ "password" (Json.str p) (encodeString p) _
        (fun g r2 => parseValue_str g p r2) (fun x => rfl),
      skipWs_encodeString]
    rw [show f + 2 = Nat.succ (f + 1) from rfl,
      parseMembers_step (f + 1) _ "expiresAt" (Json.str e) (encodeString e) _
        (fun g r2 => parseValue_str g e r2) (fun x => rfl),
      skipWs_encodeString]
    rw [show f + 1 = Nat.succ f from rfl, parseMembers_last_true]
    rfl

theorem parseItems_succ (F : Nat) (acc : List Json) (cs : List Char) :
    parseItems (Nat.succ F) acc cs =
      match parseValue F cs with
      | some (v, r1) =>
        match skipWs r1 with
        | [] => none
        | c2 :: r2 =>
          if c2 = ',' then parseItems F (v :: acc) (skipWs r2)
          else if c2 = ']' then some (Json.arr (v :: acc).reverse, r2)
          else none
      | none => none := rfl

theorem parseItems_records :
    ∀ (rs : List Record) (r : Record) (f : Nat) (acc : List Json)
      (rest : List Char),
      parseItems (rs.length + (f + 8)) acc
        (dumpVal (Record.toJson r) 1 ++ (dumpRest (rs.map Record.toJson) 1 ++
          ('\n' :: (']' :: rest)))) =
      some (Json.arr (acc.reverse ++ (Record.toJson r :: rs.map Record.toJson)),
        rest) := by
  intro rs
  induction rs with
  | nil =>
    intro r f acc rest
    simp only [List.map_nil, dumpRest, List.nil_append, List.length_nil]
    rw [show 0 + (f + 8) = Nat.succ (f + 7) from by omega, parseItems_succ,
      parseValue_record f r ('\n' :: (']' :: rest))]
    have s1 : skipWs ('\n' :: (']' :: rest)) = ']' :: rest := rfl
    have hne : ¬(']' = ',') := by decide
    simp only [s1, hne, if_false, ite_false, eq_self_iff_true, ite_true,
      List.reverse_cons]
  | cons r2 rs ih =>
    intro r f acc rest
    simp only [List.map_cons, dumpRest, List.cons_append, List.append_assoc,
      List.nil_append, List.length_cons]
    rw [show rs.length + 1 + (f + 8) = Nat.succ (rs.length + (f + 8)) from by
      omega]
    rw [parseItems_succ]
    rw [show rs.length + (f + 8) = rs.length + f + 1 + 7 from by omega,
      parseValue_record (rs.length + f + 1) r]
    have s1 : skipWs (',' :: ('\n' :: (indentChars 1 ++
        (dumpVal (Record.toJson r2) 1 ++ (dumpRest (rs.map Record.toJson) 1 ++
          ('\n' :: (']' :: rest))))))) =
        ',' :: ('\n' :: (indentChars 1 ++
        (dumpVal (Record.toJson r2) 1 ++ (dumpRest (rs.map Record.toJson) 1 ++
          ('\n' :: (']' :: rest)))))) := skipWs_nonws ',' _ rfl
    have s2 : skipWs ('\n' :: (indentChars 1 ++
        (dumpVal (Record.toJson r2) 1 ++ (dumpRest (rs.map Record.toJson) 1 ++
          ('\n' :: (']' :: rest)))))) =
        dumpVal (Record.toJson r2) 1 ++ (dumpRest (rs.map Record.toJson) 1 ++
          ('\n' :: (']' :: rest))) := rfl
    simp only [s1, s2, eq_self_iff_true, ite_true]
    rw [show rs.length + f + 1 + 7 = rs.length + (f + 8) from by omega,
      ih r2 f (Record.toJson r :: acc) rest]
    simp [List.reverse_cons, List.append_assoc]

theorem recordDump_cons (r : Record) : dumpVal (Record.toJson r) 1 =
    '{' :: ('\n' :: (indentChars 2 ++ (encodeString "id" ++ (':' :: (' ' ::
      (encodeString r.id ++ (dumpObjRest [("username", Json.str r.username),
        ("password", Json.str r.password), ("expiresAt", Json.str r.expiresAt),
        ("allowOffline", Json.bool r.allowOffline)] 2 ++
        ('\n' :: (indentChars 1 ++ ['}']))))))))) := rfl

theorem parseValue_arr_enter (f : Nat) (cs Y : List Char) :
    parseValue (Nat.succ f)
      ('[' :: ('\n' :: (indentChars 1 ++ (('{' :: cs) ++ Y)))) =
    parseItems f [] (('{' :: cs) ++ Y) := by
  have h1 : skipWs ('\n' :: (indentChars 1 ++ ('{' :: (cs ++ Y)))) =
      '{' :: (cs ++ Y) := rfl
  have hne1 : ¬('[' = '"') := by decide
  have hne2 : ¬('[' = '{') := by decide
  have hne3 : ¬('{' = ']') := by decide
  simp only [parseValue, List.cons_append, h1, hne1, hne2, hne3,
    eq_self_iff_true, ite_true, if_false, ite_false]

theorem dumpRest_length (rs : List Record) :
    rs.length ≤ (dumpRest (rs.map Record.toJson) 1).length := by
  induction rs with
  | nil => simp [dumpRest]
  | cons r rs ih =>
    simp only [List.map_cons, dumpRest, List.length_cons, List.length_append]
    omega

theorem recordDump_length (r : Record) :
    2 ≤ (dumpVal (Record.toJson r) 1).length := by
  rw [recordDump_cons r]
  simp

theorem loads_dumps_records (c : List Record) :
    loads (dumps (Json.arr (c.map Record.toJson))) =
      some (Json.arr (c.map Record.toJson)) := by
  cases c with
  | nil => rfl
  | cons r rs =>
    simp only [loads, dumps, List.map_cons]
    rw [show dumpVal (Json.arr (Record.toJson r :: rs.map Record.toJson)) 0 =
        '[' :: ('\n' :: (indentChars 1 ++ (dumpVal (Record.toJson r) 1 ++
          (dumpRest (rs.map Record.toJson) 1 ++
            ('\n' :: (']' :: ([] : List Char))))))) from rfl]
    set L := '[' :: ('\n' :: (indentChars 1 ++ (dumpVal (Record.toJson r) 1 ++
      (dumpRest (rs.map Record.toJson) 1 ++
        ('\n' :: (']' :: ([] : List Char))))))) with hL
    have hskip : skipWs L = L := by
      rw [hL]
      exact skipWs_nonws '[' _ rfl
    rw [hskip]
    have hlen : rs.length + 8 ≤ L.length := by
      have h2 := recordDump_length r
      have h3 := dumpRest_length rs
      rw [hL]
      simp only [List.length_cons, List.length_append, indentChars,
        List.length_replicate]
      omega
    have hparse : ∀ g, parseValue (Nat.succ (rs.length + (g + 8))) L =
        some (Json.arr (Record.toJson r :: rs.map Record.toJson), []) := by
      intro g
      rw [hL, recordDump_cons r, parseValue_arr_enter, ← recordDump_cons r,
        parseItems_records rs r g [] []]
      simp
    rw [show L.length + 1 =
        Nat.succ (rs.length + ((L.length - rs.length - 8) + 8)) from by omega]
    rw [hparse (L.length - rs.length - 8)]
    simp [skipWs]

theorem fromJson_toJson (r : Record) :
    Record.fromJson? (Record.toJson r) = some r := rfl

theorem mapM_fromJson_toJson (c : List Record) :
    (c.map Record.toJson).mapM Record.fromJson? = some c := by
  induction c with
  | nil => rfl
  | cons r rs ih =>
    rw [List.map_cons, List.mapM_cons, fromJson_toJson, ih]
    rfl

/-- C8.  Round trip: for every collection `c` of records, whenever
`save_users` succeeds (the metadata fetch returned 200 with a JSON
object whose `sha` entry is sliceable and the PUT returned 200 or 201),
a subsequent `load_users` that observes the exact document `save_users`
wrote - `dumps` of the record array, i.e. no external modification in
between - returns the very same JSON array, and decoding that array
field by field recovers `c` itself: same length, same field values,
same order. -/
theorem save_load_roundtrip (c : List Record) (metaBody : String)
    (fields : List (String × Json)) (put : Nat)
    (hmeta : loads metaBody = some (Json.obj fields))
    (hsha : shaSliceable ((fields.lookup "sha").getD (Json.str "")) = true)
    (hput : put = 200 ∨ put = 201) :
    save_users (c.map Record.toJson) (GetResult.response 200 metaBody)
        (some put) = true ∧
    load_users (GetResult.response 200
        (dumps (Json.arr (c.map Record.toJson)))) =
      Json.arr (c.map Record.toJson) ∧
    (c.map Record.toJson).mapM Record.fromJson? = some c := by
  refine ⟨?_, ?_, mapM_fromJson_toJson c⟩
  · simp only [save_users, hmeta, hsha]
    rcases hput with h | h <;> simp [h]
  · simp [load_users, loads_dumps_records c]

theorem save_load_roundtrip_witness :
    save_users
        ([(⟨"dev1", "alice", "p\"w\\x", "2025-12-12", true⟩ : Record)].map
          Record.toJson)
        (GetResult.response 200 "\x7b\"sha\": \"abc\"\x7d") (some 200) = true ∧
    load_users (GetResult.response 200
        (dumps (Json.arr
          ([(⟨"dev1", "alice", "p\"w\\x", "2025-12-12", true⟩ : Record)].map
            Record.toJson)))) =
      Json.arr
        ([(⟨"dev1", "alice", "p\"w\\x", "2025-12-12", true⟩ : Record)].map
          Record.toJson) ∧
    (([(⟨"dev1", "alice", "p\"w\\x", "2025-12-12", true⟩ : Record)].map
        Record.toJson)).mapM Record.fromJson? =
      some [(⟨"dev1", "alice", "p\"w\\x", "2025-12-12", true⟩ : Record)] :=
  save_load_roundtrip
    [(⟨"dev1", "alice", "p\"w\\x", "2025-12-12", true⟩ : Record)]
    "\x7b\"sha\": \"abc\"\x7d" [("sha", Json.str "abc")] 200
    (by rfl) (by rfl) (Or.inl rfl)
